import Mathlib

/-!
Verification of the DHCPv6 message parsing/serialization core of dhcpkit.

Embedded sources:
- src/dhcp/parsing.py          (StructuredElement: may-contain tables, validate_contains,
                                get_element_class, parse)
- src/dhcpkit/ipv6/messages.py (Message hierarchy: UnknownMessage, ClientServerMessage,
                                RelayServerMessage, the 13 concrete variants, wrap_response)

Modelling conventions:
- Byte buffers are `List Nat`; a well-formed byte is < 256.  Python `buffer[i]` raising
  IndexError is `pyByte`; Python clamping slices `buffer[a:b]` are `pySlice`.
- Python exceptions are `Except Err`; `Err` carries the data the Python message formats.
- Python classes are identified by their fixed wire tag (`message_type` field), since every
  concrete class fixes exactly one tag; registered option classes are identified by `Nat` ids.
- The option catalog, the option registry and the may-contain registrations live outside the
  two source files; they are modelled from the spec (each such definition is marked
  `Modelled from the spec:`) and kept abstract where possible (`Cfg`).
- Recursive parsing uses explicit fuel (`structural` on the fuel); the top level entry point
  `Message.parse` supplies `buffer.length + 1` fuel, which is proved sufficient.
-/

namespace DhcpKit

/-- Errors of the embedded code.  Each constructor stands for one Python `raise` site (or a
TypeError/IndexError the interpreter raises); the payloads carry the data the Python error
message formats. -/
inductive Err where
  /-- Python IndexError: reading `buffer[i]` past the end. -/
  | indexError
  /-- Python TypeError: `None - int` (UnknownMessage.load_from with length=None). -/
  | typeError
  /-- "Message type must be an unsigned 8-bit integer" -/
  | messageTypeNotByte
  /-- "Message data must consist of bytes" -/
  | messageDataNotBytes
  /-- "Transaction-id must be 3 bytes" -/
  | transactionIdNot3Bytes
  /-- "Hop-count must be an unsigned 8 bit integer" -/
  | hopCountNotByte
  /-- "Link-address must be a non-multicast IPv6 address" (also AddressValueError on load). -/
  | linkAddressInvalid
  /-- "Peer-address must be a non-multicast IPv6 address" (also AddressValueError on load). -/
  | peerAddressInvalid
  /-- "\x7bcontainer\x7d cannot contain \x7belement\x7d" -/
  | cannotContain (container : String) (element : String)
  /-- "\x7bcontainer\x7d may only contain \x7bbound\x7d \x7bklass\x7ds"; bound is the number the
  Python message formats. -/
  | mayOnlyContain (container : String) (bound : Nat) (klass : Nat)
  /-- "\x7bcontainer\x7d must contain at least \x7bbound\x7d \x7bklass\x7ds"; bound is the number
  the Python message formats. -/
  | mustContainAtLeast (container : String) (bound : Nat) (klass : Nat)
  /-- "IAID \x7biaid\x7d of \x7bklass\x7d is not unique" -/
  | iaidNotUnique (iaid : Nat) (klass : Option Nat)
  /-- "The provided buffer does not contain \x7bclass\x7d data" -/
  | wrongMessageType (container : String)
  /-- "RelayForwardMessages can only contain other RelayForwardMessages and
  ClientServerMessages" -/
  | relayChainCorrupt
  /-- Modelled option-layer decode failure: option header or payload extends past the buffer. -/
  | optionTruncated
  /-- Modelled option-layer validation failure (field out of its wire-encodable domain). -/
  | optionInvalid
  /-- Modelled option-layer failure: an embedded message did not consume its whole payload. -/
  | optionLengthMismatch
  /-- Artifact of the fuel-based embedding, never reached with sufficient fuel. -/
  | fuelExhausted
  deriving DecidableEq, Repr

instance {e a : Type} [DecidableEq e] [DecidableEq a] : DecidableEq (Except e a) :=
  fun x y =>
    match x, y with
    | .ok u, .ok v =>
      match decEq u v with
      | isTrue h => isTrue (by rw [h])
      | isFalse h => isFalse (fun hh => by cases hh; exact h rfl)
    | .error u, .error v =>
      match decEq u v with
      | isTrue h => isTrue (by rw [h])
      | isFalse h => isFalse (fun hh => by cases hh; exact h rfl)
    | .ok _, .error _ => isFalse (fun hh => by cases hh)
    | .error _, .ok _ => isFalse (fun hh => by cases hh)

/-- Python `buffer[i]` on a bytes object: the byte, or IndexError. -/
def pyByte (buffer : List Nat) (i : Nat) : Except Err Nat :=
  match buffer.get? i with
  | some v => .ok v
  | none => .error .indexError

/-- Python `buffer[a:b]` on a bytes object (nonnegative bounds): clamps, never raises. -/
def pySlice (buffer : List Nat) (a b : Nat) : List Nat :=
  (buffer.take b).drop a

/-- parsing.py: `infinite = 2 ** 31 - 1`, the default max_occurrence. -/
def infinite : Nat := 2 ^ 31 - 1

/-!
StructuredElement.get_element_class / validate_contains (src/dhcp/parsing.py 43-69, 238-253).

The `_may_contain` ChainMap is modelled as an association list `table` of
(class id, min_occurrence, max_occurrence) in iteration order, and `isinstance` as the
boolean relation `isInst`; both are parameters because the registrations happen in the
option modules outside src/.  Class ids are `Nat`, element runtime class names are produced
by an `elemName` parameter (only used in error payloads).
-/

/-- StructuredElement.get_element_class: scan the may-contain table in iteration order;
a max_occurrence < 1 entry stops the scan with None ("may not contain this, stop looking"),
an isinstance match returns that class, falling off the end returns None. -/
def get_element_class {α : Type} (isInst : α → Nat → Bool)
    (table : List (Nat × Nat × Nat)) (element : α) : Option Nat :=
  match table with
  | [] => none
  | (klass, _, max_occurrence) :: rest =>
    if max_occurrence < 1 then none
    else if isInst element klass then some klass
    else get_element_class isInst rest element

/-- StructuredElement.may_contain. -/
def may_contain {α : Type} (isInst : α → Nat → Bool)
    (table : List (Nat × Nat × Nat)) (element : α) : Bool :=
  (get_element_class isInst table element).isSome

/-- First loop of validate_contains: classify every element, raising
"cannot contain" at the first unclassifiable one.  The returned list of class ids
plays the role of the occurrence Counter (counting happens in `checkOccurrence`). -/
def classifyElements {α : Type} (isInst : α → Nat → Bool) (elemName : α → String)
    (container : String) (table : List (Nat × Nat × Nat)) :
    List α → Except Err (List Nat)
  | [] => .ok []
  | element :: rest =>
    match get_element_class isInst table element with
    | none => .error (.cannotContain container (elemName element))
    | some klass => do
      let classified ← classifyElements isInst elemName container table rest
      .ok (klass :: classified)

/-- Second loop of validate_contains: for every registered (min, max) pair compare the count.
The max branch raises "may only contain \x7bmax\x7d"; the min branch raises
"must contain at least 1" when min_occurrence == 1 but formats max_occurrence
in its message otherwise, exactly as the source does (parsing.py line 68). -/
def checkOccurrence (container : String) (classified : List Nat) :
    List (Nat × Nat × Nat) → Except Err Unit
  | [] => .ok ()
  | (klass, min_occurrence, max_occurrence) :: rest =>
    let count := classified.count klass
    if count > max_occurrence then
      .error (.mayOnlyContain container max_occurrence klass)
    else if count < min_occurrence then
      if min_occurrence = 1 then
        .error (.mustContainAtLeast container 1 klass)
      else
        .error (.mustContainAtLeast container max_occurrence klass)
    else checkOccurrence container classified rest

/-- StructuredElement.validate_contains: count occurrences per classified class, then check
every registered bound. -/
def validate_contains {α : Type} (isInst : α → Nat → Bool) (elemName : α → String)
    (container : String) (table : List (Nat × Nat × Nat)) (elements : List α) :
    Except Err Unit := do
  let classified ← classifyElements isInst elemName container table elements
  checkOccurrence container classified table

/-!
The message hierarchy (src/dhcpkit/ipv6/messages.py).

A Python instance is identified by its constructor-visible state plus its class; because
every concrete message class fixes exactly one `message_type`, the class is carried by the
`messageType` field: `clientServer t ...` with 1 ≤ t ≤ 11 stands for an instance of the
concrete ClientServerMessage subclass registered for tag t, `relayServer 12/13 ...` for
RelayForwardMessage/RelayReplyMessage.  IPv6 addresses are their 16-byte packed form.

Options live outside src/.  Modelled from the spec: "each option is just another structured
element conforming to the same parse/save contract", with a self-describing
2-byte-code/2-byte-length wire header; the distinguished relay-message option (wire code 9)
wraps exactly one inner Message, every other option kind is an opaque code/payload pair.
-/

mutual
inductive Message where
  | unknown (messageType : Nat) (messageData : List Nat)
  | clientServer (messageType : Nat) (transactionId : List Nat) (options : List Opt)
  | relayServer (messageType : Nat) (hopCount : Nat) (linkAddress : List Nat)
      (peerAddress : List Nat) (options : List Opt)
  deriving Repr
inductive Opt where
  | generic (code : Nat) (data : List Nat)
  | relayMsg (relayedMessage : Message)
  deriving Repr
end

mutual
def msgDecEq : (a b : Message) → Decidable (a = b)
  | .unknown t d, .unknown t2 d2 =>
    match decEq t t2, decEq d d2 with
    | isTrue h1, isTrue h2 => isTrue (by rw [h1, h2])
    | isFalse h1, _ => isFalse (fun h => by cases h; exact h1 rfl)
    | _, isFalse h2 => isFalse (fun h => by cases h; exact h2 rfl)
  | .unknown _ _, .clientServer _ _ _ => isFalse (fun h => by cases h)
  | .unknown _ _, .relayServer _ _ _ _ _ => isFalse (fun h => by cases h)
  | .clientServer _ _ _, .unknown _ _ => isFalse (fun h => by cases h)
  | .clientServer _ _ _, .relayServer _ _ _ _ _ => isFalse (fun h => by cases h)
  | .relayServer _ _ _ _ _, .unknown _ _ => isFalse (fun h => by cases h)
  | .relayServer _ _ _ _ _, .clientServer _ _ _ => isFalse (fun h => by cases h)
  | .clientServer t tid o, .clientServer t2 tid2 o2 =>
    match decEq t t2, decEq tid tid2, optsDecEq o o2 with
    | isTrue h1, isTrue h2, isTrue h3 => isTrue (by rw [h1, h2, h3])
    | isFalse h1, _, _ => isFalse (fun h => by cases h; exact h1 rfl)
    | _, isFalse h2, _ => isFalse (fun h => by cases h; exact h2 rfl)
    | _, _, isFalse h3 => isFalse (fun h => by cases h; exact h3 rfl)
  | .relayServer t hc la pa o, .relayServer t2 hc2 la2 pa2 o2 =>
    match decEq t t2, decEq hc hc2, decEq la la2, decEq pa pa2, optsDecEq o o2 with
    | isTrue h1, isTrue h2, isTrue h3, isTrue h4, isTrue h5 =>
      isTrue (by rw [h1, h2, h3, h4, h5])
    | isFalse h1, _, _, _, _ => isFalse (fun h => by cases h; exact h1 rfl)
    | _, isFalse h2, _, _, _ => isFalse (fun h => by cases h; exact h2 rfl)
    | _, _, isFalse h3, _, _ => isFalse (fun h => by cases h; exact h3 rfl)
    | _, _, _, isFalse h4, _ => isFalse (fun h => by cases h; exact h4 rfl)
    | _, _, _, _, isFalse h5 => isFalse (fun h => by cases h; exact h5 rfl)
def optDecEq : (a b : Opt) → Decidable (a = b)
  | .generic c d, .generic c2 d2 =>
    match decEq c c2, decEq d d2 with
    | isTrue h1, isTrue h2 => isTrue (by rw [h1, h2])
    | isFalse h1, _ => isFalse (fun h => by cases h; exact h1 rfl)
    | _, isFalse h2 => isFalse (fun h => by cases h; exact h2 rfl)
  | .generic _ _, .relayMsg _ => isFalse (fun h => by cases h)
  | .relayMsg _, .generic _ _ => isFalse (fun h => by cases h)
  | .relayMsg m, .relayMsg m2 =>
    match msgDecEq m m2 with
    | isTrue h1 => isTrue (by rw [h1])
    | isFalse h1 => isFalse (fun h => by cases h; exact h1 rfl)
def optsDecEq : (a b : List Opt) → Decidable (a = b)
  | [], [] => isTrue rfl
  | [], _ :: _ => isFalse (fun h => by cases h)
  | _ :: _, [] => isFalse (fun h => by cases h)
  | a :: as, b :: bs =>
    match optDecEq a b, optsDecEq as bs with
    | isTrue h1, isTrue h2 => isTrue (by rw [h1, h2])
    | isFalse h1, _ => isFalse (fun h => by cases h; exact h1 rfl)
    | _, isFalse h2 => isFalse (fun h => by cases h; exact h2 rfl)
end

instance : DecidableEq Message := msgDecEq
instance : DecidableEq Opt := optDecEq

/-- The concrete classes the message registry can yield.  The eleven ClientServerMessage
subclasses are distinguished by their fixed tag. -/
inductive MsgClass where
  | clientServerClass (messageType : Nat)
  | relayForwardClass
  | relayReplyClass
  | unknownMessageClass
  deriving DecidableEq, Repr

/-- dhcpkit.ipv6.message_registry after the thirteen register(...) calls at the bottom of
messages.py: tags 1-11 map to the ClientServerMessage subclasses (Solicit .. InformationRequest),
12 to RelayForwardMessage, 13 to RelayReplyMessage. -/
def message_registry (message_type : Nat) : Option MsgClass :=
  if 1 ≤ message_type ∧ message_type ≤ 11 then some (.clientServerClass message_type)
  else if message_type = 12 then some .relayForwardClass
  else if message_type = 13 then some .relayReplyClass
  else none

/-- Message.determine_class: look the tag byte up in the registry, defaulting to
UnknownMessage. -/
def determine_class (buffer : List Nat) (offset : Nat) : Except Err MsgClass := do
  let message_type ← pyByte buffer offset
  .ok ((message_registry message_type).getD .unknownMessageClass)

/-- The `__name__` of the concrete class registered for a tag (used in error messages). -/
def className (messageType : Nat) : String :=
  if messageType = 1 then "SolicitMessage"
  else if messageType = 2 then "AdvertiseMessage"
  else if messageType = 3 then "RequestMessage"
  else if messageType = 4 then "ConfirmMessage"
  else if messageType = 5 then "RenewMessage"
  else if messageType = 6 then "RebindMessage"
  else if messageType = 7 then "ReplyMessage"
  else if messageType = 8 then "ReleaseMessage"
  else if messageType = 9 then "DeclineMessage"
  else if messageType = 10 then "ReconfigureMessage"
  else if messageType = 11 then "InformationRequestMessage"
  else if messageType = 12 then "RelayForwardMessage"
  else if messageType = 13 then "RelayReplyMessage"
  else "UnknownMessage"

/-- Modelled from the spec: options "may expose an echo_to_relay flag" consulted by relay
wrapping; the flag is a class attribute, hence fixed per option code.  Code 18 (interface-id)
stands for the echoing kinds; the relay message option itself does not echo. -/
def echo_to_relay : Opt → Bool
  | .generic code _ => code == 18
  | .relayMsg _ => false

/-- Modelled from the spec: some option kinds "may expose iaid: integer" consulted by the
IAID-uniqueness validation (`getattr(option, 'iaid', None)`).  Code 3 (IA-NA) stands for the
IA kinds, its iaid being the big-endian value of the first four data bytes. -/
def optIaid : Opt → Option Nat
  | .generic code data =>
    if code == 3 then some ((data.take 4).foldl (fun a b => a * 256 + b) 0) else none
  | .relayMsg _ => none

/-- Modelled from the spec: the `__name__` of an option's runtime class (only used inside
"cannot contain" error payloads). -/
def optClassName : Opt → String
  | .generic _ _ => "UnknownOption"
  | .relayMsg _ => "RelayMessageOption"

/-- Modelled from the spec: the parts of the environment that are populated outside the two
embedded source files — the isinstance relation between option instances and registered
option-class ids, and the inherited may-contain tables (in ChainMap iteration order) of
ClientServerMessage and RelayServerMessage. -/
structure Cfg where
  isInst : Opt → Nat → Bool
  csTable : List (Nat × Nat × Nat)
  relayTable : List (Nat × Nat × Nat)

/-!
Wire encoding of a message (the pure value that save() returns when validation passes):
tag, then the shape-specific header, then the options back-to-back.
-/
mutual
def msgBytes : Message → List Nat
  | .unknown messageType messageData => messageType :: messageData
  | .clientServer messageType transactionId options =>
    messageType :: (transactionId ++ optsBytes options)
  | .relayServer messageType hopCount linkAddress peerAddress options =>
    messageType :: hopCount :: (linkAddress ++ peerAddress ++ optsBytes options)
def optsBytes : List Opt → List Nat
  | [] => []
  | o :: rest => optBytes o ++ optsBytes rest
def optBytes : Opt → List Nat
  | .generic code data =>
    code / 256 :: code % 256 :: data.length / 256 :: data.length % 256 :: data
  | .relayMsg m =>
    let s := msgBytes m
    0 :: 9 :: s.length / 256 :: s.length % 256 :: s
end

/-!
Fuel needed by the parser on the encoding of a value (also the induction measure for
the mutual structure).
-/
mutual
def msgFuel : Message → Nat
  | .unknown _ _ => 1
  | .clientServer _ _ options => 2 + optsFuel options
  | .relayServer _ _ _ _ options => 2 + optsFuel options
def optsFuel : List Opt → Nat
  | [] => 0
  | o :: rest => 1 + optFuel o + optsFuel rest
def optFuel : Opt → Nat
  | .generic _ _ => 1
  | .relayMsg m => 1 + msgFuel m
end

/-!
A value re-dispatches to its own class when its encoding is parsed (msgDispatchOK): every
unknown message carries an unregistered tag, client-server tags lie in 1..11, relay tags in
12..13, and no generic option uses the relay-message option code.  For values built from
actual Python instances only the unknown-tag condition is substantive (the class of the
others fixes the tag).
-/
mutual
def msgDispatchOK : Message → Bool
  | .unknown messageType _ => message_registry messageType == none
  | .clientServer messageType _ options =>
    decide (1 ≤ messageType ∧ messageType ≤ 11) && optsDispatchOK options
  | .relayServer messageType _ _ _ options =>
    (messageType == 12 || messageType == 13) && optsDispatchOK options
def optsDispatchOK : List Opt → Bool
  | [] => true
  | o :: rest => optDispatchOK o && optsDispatchOK rest
def optDispatchOK : Opt → Bool
  | .generic code _ => code != 9
  | .relayMsg m => msgDispatchOK m
end

/-!
Validation (messages.py: UnknownMessage.validate, ClientServerMessage.validate,
RelayServerMessage.validate).  ClientServerMessage.validate additionally walks the options
enforcing IAID uniqueness per classified class, keyed by get_element_class, in a dict of
lists (`iaids`); note the source guards with `if iaid:` — Python truthiness — so an integer
iaid of 0 (and an absent iaid, None) skips the uniqueness bookkeeping entirely.
-/

/-- Lookup in the `iaids` dict (association list keyed by classification result). -/
def iaidLookup (iaids : List (Option Nat × List Nat)) (k : Option Nat) : List Nat :=
  match iaids with
  | [] => []
  | (k2, v) :: rest => if k2 = k then v else iaidLookup rest k

/-- Store a class's iaid list in the `iaids` dict (setdefault followed by append). -/
def iaidInsert (iaids : List (Option Nat × List Nat)) (k : Option Nat) (v : List Nat) :
    List (Option Nat × List Nat) :=
  match iaids with
  | [] => [(k, v)]
  | (k2, w) :: rest => if k2 = k then (k2, v) :: rest else (k2, w) :: iaidInsert rest k v

/-- The IAID-uniqueness loop of ClientServerMessage.validate (messages.py 158-167).
`getattr(option, 'iaid', None)` is `optIaid option`; the `if iaid:` truthiness test is
`(optIaid option).getD 0 ≠ 0` (None and the integer 0 are both falsy). -/
def iaidCheckLoop (cfg : Cfg) (iaids : List (Option Nat × List Nat)) :
    List Opt → Except Err Unit
  | [] => .ok ()
  | option :: rest =>
    let iaid := (optIaid option).getD 0
    if iaid ≠ 0 then
      let option_class := get_element_class cfg.isInst cfg.csTable option
      let existing := iaidLookup iaids option_class
      if iaid ∈ existing then .error (.iaidNotUnique iaid option_class)
      else iaidCheckLoop cfg (iaidInsert iaids option_class (existing ++ [iaid])) rest
    else iaidCheckLoop cfg iaids rest

mutual
def messageValidate (cfg : Cfg) : Message → Except Err Unit
  | .unknown message_type message_data =>
    if ¬ (message_type < 256) then .error .messageTypeNotByte
    else if ¬ (message_data.all (· < 256)) then .error .messageDataNotBytes
    else .ok ()
  | .clientServer message_type transaction_id options =>
    if ¬ (transaction_id.length = 3 ∧ transaction_id.all (· < 256)) then
      .error .transactionIdNot3Bytes
    else do
      validate_contains cfg.isInst optClassName (className message_type) cfg.csTable options
      optionsValidate cfg options
      iaidCheckLoop cfg [] options
  | .relayServer message_type hop_count link_address peer_address options =>
    if ¬ (hop_count < 256) then .error .hopCountNotByte
    else if ¬ (link_address.length = 16 ∧ link_address.all (· < 256) ∧
        link_address.head? ≠ some 255) then .error .linkAddressInvalid
    else if ¬ (peer_address.length = 16 ∧ peer_address.all (· < 256) ∧
        peer_address.head? ≠ some 255) then .error .peerAddressInvalid
    else do
      validate_contains cfg.isInst optClassName (className message_type) cfg.relayTable options
      optionsValidate cfg options
def optionsValidate (cfg : Cfg) : List Opt → Except Err Unit
  | [] => .ok ()
  | option :: rest => do
    optionValidate cfg option
    optionsValidate cfg rest
def optionValidate (cfg : Cfg) : Opt → Except Err Unit
  | .generic code data =>
    if code < 65536 ∧ data.length < 65536 ∧ data.all (· < 256) then .ok ()
    else .error .optionInvalid
  | .relayMsg relayed_message =>
    if (msgBytes relayed_message).length < 65536 then messageValidate cfg relayed_message
    else .error .optionLengthMismatch
end

/-- save() (all three variants): validate, then emit the wire encoding.  The source
validates the whole tree up front (each variant's validate recurses into its options) and
then revalidates each option inside option.save(); on success the emitted bytes are exactly
`msgBytes`, and the call fails exactly when validation fails, so the per-option revalidation
is observably subsumed by the up-front validate. -/
def messageSave (cfg : Cfg) (m : Message) : Except Err (List Nat) := do
  messageValidate cfg m
  .ok (msgBytes m)

/-!
Loading (messages.py: UnknownMessage.load_from, ClientServerMessage.load_from,
RelayServerMessage.load_from, plus StructuredElement.parse dispatching through
determine_class).  The option sub-parser (`optionParse`) is modelled from the spec:
"each option ... self-describing length-prefixed encoding" with a 2-byte code and 2-byte
length header, dispatching code 9 to the relay-message option (which parses its embedded
Message and must consume its whole payload) and every other code to an opaque option; a
header or payload extending past the buffer is a decode error.  The load_from loops invoke
it without a length bound, exactly as the source does (`Option.parse(buffer,
offset=offset + my_offset)`).
-/

/-- The `length or (len(buffer) - offset)` idiom of both load_from option loops: Python
`or` falls back when length is None or 0 (0 is falsy). -/
def pyMaxLength (buffer : List Nat) (offset : Nat) (length : Option Nat) : Nat :=
  match length with
  | none => buffer.length - offset
  | some 0 => buffer.length - offset
  | some l => l

/-- UnknownMessage.load_from: read the tag byte, then take `length - 1` following bytes as
the opaque payload.  With `length=None` the source computes `None - my_offset`: TypeError.
The returned count is `1 + (length - 1) = length` even when the buffer is shorter (Python
adds the declared, not the clamped, payload length). -/
def loadUnknown (cfg : Cfg) (buffer : List Nat) (offset : Nat) (length : Option Nat) :
    Except Err (Nat × Message) := do
  let message_type ← pyByte buffer offset
  match length with
  | none => .error .typeError
  | some l =>
    let message_data := pySlice buffer (offset + 1) (offset + l)
    let m := Message.unknown message_type message_data
    messageValidate cfg m
    .ok (l, m)

mutual
/-- StructuredElement.parse specialised to Message: determine_class on the tag byte, build a
fresh default instance of that class, and run its load_from. -/
def parseMessageF (cfg : Cfg) (fuel : Nat) (buffer : List Nat) (offset : Nat)
    (length : Option Nat) : Except Err (Nat × Message) :=
  match fuel with
  | 0 => .error .fuelExhausted
  | n + 1 => do
    let element_class ← determine_class buffer offset
    match element_class with
    | .clientServerClass t => loadClientServer cfg n t [] buffer offset length
    | .relayForwardClass => loadRelayServer cfg n 12 [] buffer offset length
    | .relayReplyClass => loadRelayServer cfg n 13 [] buffer offset length
    | .unknownMessageClass => loadUnknown cfg buffer offset length
termination_by structural fuel
/-- ClientServerMessage.load_from on an instance of the subclass with fixed tag
`selfMessageType` whose options list currently holds `selfOptions`: read the tag (which must
equal the fixed tag, else ValueError), the 3-byte transaction id, then append options parsed
one at a time until the declared length (or, when length is None or 0, the remaining buffer)
is exhausted; validate the resulting state and return the bytes consumed. -/
def loadClientServer (cfg : Cfg) (fuel : Nat) (selfMessageType : Nat) (selfOptions : List Opt)
    (buffer : List Nat) (offset : Nat) (length : Option Nat) : Except Err (Nat × Message) :=
  match fuel with
  | 0 => .error .fuelExhausted
  | n + 1 => do
    let message_type ← pyByte buffer offset
    if message_type ≠ selfMessageType then
      .error (.wrongMessageType (className selfMessageType))
    else
      let transaction_id := pySlice buffer (offset + 1) (offset + 4)
      let maxLength := pyMaxLength buffer offset length
      do
        let r ← parseOptions cfg n buffer offset 4 maxLength selfOptions
        let m := Message.clientServer selfMessageType transaction_id r.2
        messageValidate cfg m
        .ok (r.1, m)
termination_by structural fuel
/-- RelayServerMessage.load_from on an instance of the subclass with fixed tag
`selfMessageType` whose options list currently holds `selfOptions`: assign the tag from the
buffer (the source performs no mismatch check here), read hop count and the two 16-byte
addresses, then the same option loop as the client-server variant starting at offset 34. -/
def loadRelayServer (cfg : Cfg) (fuel : Nat) (selfMessageType : Nat) (selfOptions : List Opt)
    (buffer : List Nat) (offset : Nat) (length : Option Nat) : Except Err (Nat × Message) :=
  match fuel with
  | 0 => .error .fuelExhausted
  | n + 1 => do
    let message_type ← pyByte buffer offset
    let hop_count ← pyByte buffer (offset + 1)
    let link_address := pySlice buffer (offset + 2) (offset + 18)
    if link_address.length ≠ 16 then .error .linkAddressInvalid
    else
      let peer_address := pySlice buffer (offset + 18) (offset + 34)
      if peer_address.length ≠ 16 then .error .peerAddressInvalid
      else
        let maxLength := pyMaxLength buffer offset length
        do
          let r ← parseOptions cfg n buffer offset 34 maxLength selfOptions
          let m := Message.relayServer message_type hop_count link_address peer_address r.2
          messageValidate cfg m
          .ok (r.1, m)
termination_by structural fuel
/-- The shared option loop of both load_from variants: `while max_length > my_offset`,
parse one option at the current position (with no length bound), append it, advance.
Note there is no check that an option stays within max_length. -/
def parseOptions (cfg : Cfg) (fuel : Nat) (buffer : List Nat) (offset myOffset maxLength : Nat)
    (options : List Opt) : Except Err (Nat × List Opt) :=
  if maxLength > myOffset then
    match fuel with
    | 0 => .error .fuelExhausted
    | n + 1 => do
      let r ← optionParse cfg n buffer (offset + myOffset)
      parseOptions cfg n buffer offset (myOffset + r.1) maxLength (options ++ [r.2])
  else .ok (myOffset, options)
termination_by structural fuel
/-- Modelled from the spec: Option.parse through the option registry — read the 2-byte code
and 2-byte length, fail if header or payload extends past the buffer, dispatch code 9 to the
relay-message option (parse the embedded Message, requiring it to consume exactly the
payload) and anything else to an opaque code/payload option. -/
def optionParse (cfg : Cfg) (fuel : Nat) (buffer : List Nat) (offset : Nat) :
    Except Err (Nat × Opt) :=
  match fuel with
  | 0 => .error .fuelExhausted
  | n + 1 =>
    if buffer.length < offset + 4 then .error .optionTruncated
    else do
      let c1 ← pyByte buffer offset
      let c2 ← pyByte buffer (offset + 1)
      let l1 ← pyByte buffer (offset + 2)
      let l2 ← pyByte buffer (offset + 3)
      let code := c1 * 256 + c2
      let dlen := l1 * 256 + l2
      if buffer.length < offset + 4 + dlen then .error .optionTruncated
      else if code = 9 then do
        let r ← parseMessageF cfg n buffer (offset + 4) (some dlen)
        if r.1 = dlen then .ok (4 + dlen, .relayMsg r.2)
        else .error .optionLengthMismatch
      else .ok (4 + dlen, .generic code (pySlice buffer (offset + 4) (offset + 4 + dlen)))
termination_by structural fuel
end

/-- Message.parse: the fuel-free entry point; `buffer.length + 1` fuel is sufficient for
any buffer (`msgFuel_le_msgBytes_length`). -/
def Message.parse (cfg : Cfg) (buffer : List Nat) (offset : Nat) (length : Option Nat) :
    Except Err (Nat × Message) :=
  parseMessageF cfg (buffer.length + 1) buffer offset length

/-- A closed example configuration: one registered option class (id 0) every option is an
instance of, permitted 0..infinite times in both containers. -/
def cfgEx : Cfg where
  isInst := fun _ k => k == 0
  csTable := [(0, 0, infinite)]
  relayTable := [(0, 0, infinite)]

/-!
RelayForwardMessage.wrap_response (messages.py 504-539).  `isinstance(x,
RelayForwardMessage)` and `isinstance(x, ClientServerMessage)` become the class tests below
(class identity being carried by the messageType field in this embedding).
-/

/-- isinstance(m, RelayForwardMessage). -/
def isRelayForwardB : Message → Bool
  | .relayServer t _ _ _ _ => t == 12
  | _ => false

/-- isinstance(m, ClientServerMessage). -/
def isClientServerB : Message → Bool
  | .clientServer _ _ _ => true
  | _ => false

mutual
/-- RelayForwardMessage.wrap_response: build a RelayReplyMessage mirroring hop count and
addresses, then walk the options: echo-marked options are copied, a relay-message option
wrapping another forward relay recurses, one wrapping a client-server message embeds the
given response instead, anything else it wraps is a ValueError; all other options are
dropped.  Calling it on a non-relay instance is a caller error (the method only exists on
RelayForwardMessage). -/
def wrap_response (self response : Message) : Except Err Message :=
  match self with
  | .relayServer _ hop_count link_address peer_address options => do
    let wrapped ← wrapOptions response options
    .ok (.relayServer 13 hop_count link_address peer_address wrapped)
  | _ => .error .typeError
/-- The option walk of wrap_response (the appends into my_response.options, in order). -/
def wrapOptions (response : Message) : List Opt → Except Err (List Opt)
  | [] => .ok []
  | option :: rest =>
    if echo_to_relay option then do
      let tail ← wrapOptions response rest
      .ok (option :: tail)
    else
      match option with
      | .relayMsg relayed_message =>
        if isRelayForwardB relayed_message then do
          let inner ← wrap_response relayed_message response
          let tail ← wrapOptions response rest
          .ok (.relayMsg inner :: tail)
        else if isClientServerB relayed_message then do
          let tail ← wrapOptions response rest
          .ok (.relayMsg response :: tail)
        else .error .relayChainCorrupt
      | _ => wrapOptions response rest
end

/-!
The relay-chain shape hypothesis of the wrap_response claims, and reference functions for
them: `isChainMessage` says every relay-message option embeds either a further forward-relay
chain or a client-server message; `chainDepth` is the nesting depth through the first
relay-message option (mirroring the relayed_message accessor); `specWrapMessage` is the
transformation exactly as the spec's words describe it (echo options copied, the
relay-message option around a forward relay replaced by the recursive result, the one
around a client-server message replaced by the response, everything else dropped).
-/

mutual
def isChainMessage : Message → Bool
  | .relayServer t _ _ _ options => t == 12 && isChainOptions options
  | _ => false
def isChainOptions : List Opt → Bool
  | [] => true
  | o :: rest => isChainOption o && isChainOptions rest
def isChainOption : Opt → Bool
  | .relayMsg rm => isChainMessage rm || isClientServerB rm
  | _ => true
end

mutual
def chainDepth : Message → Nat
  | .relayServer _ _ _ _ options => 1 + chainDepthOptions options
  | _ => 0
def chainDepthOptions : List Opt → Nat
  | [] => 0
  | .relayMsg rm :: _ => chainDepth rm
  | _ :: rest => chainDepthOptions rest
end

mutual
def specWrapMessage (response : Message) : Message → Message
  | .relayServer _ hop_count link_address peer_address options =>
    .relayServer 13 hop_count link_address peer_address (specWrapOptions response options)
  | m => m
def specWrapOptions (response : Message) : List Opt → List Opt
  | [] => []
  | o :: rest =>
    if echo_to_relay o then o :: specWrapOptions response rest
    else
      match o with
      | .relayMsg rm =>
        if isRelayForwardB rm then
          .relayMsg (specWrapMessage response rm) :: specWrapOptions response rest
        else if isClientServerB rm then
          .relayMsg response :: specWrapOptions response rest
        else specWrapOptions response rest
      | _ => specWrapOptions response rest
end

/-- Round-trip induction statement, message level: parsing the encoding of a valid,
dispatch-consistent message (placed between arbitrary byte context) returns exactly its
length and the message itself. -/
def RTmsg (fuel : Nat) : Prop :=
  ∀ (cfg : Cfg) (m : Message) (pre rest : List Nat),
    messageValidate cfg m = .ok () → msgDispatchOK m = true → msgFuel m ≤ fuel →
    parseMessageF cfg fuel ((pre ++ msgBytes m) ++ rest) pre.length
      (some (msgBytes m).length) = .ok ((msgBytes m).length, m)

/-- Round-trip induction statement, option level. -/
def RTopt (fuel : Nat) : Prop :=
  ∀ (cfg : Cfg) (o : Opt) (pre rest : List Nat),
    optionValidate cfg o = .ok () → optDispatchOK o = true → optFuel o ≤ fuel →
    optionParse cfg fuel ((pre ++ optBytes o) ++ rest) pre.length =
      .ok ((optBytes o).length, o)

/-- Round-trip induction statement, option-loop level. -/
def RTopts (fuel : Nat) : Prop :=
  ∀ (cfg : Cfg) (opts : List Opt) (pre rest : List Nat) (offset myOffset : Nat)
    (acc : List Opt),
    optionsValidate cfg opts = .ok () → optsDispatchOK opts = true →
    optsFuel opts ≤ fuel → offset + myOffset = pre.length →
    parseOptions cfg fuel ((pre ++ optsBytes opts) ++ rest) offset myOffset
      (myOffset + (optsBytes opts).length) acc =
      .ok (myOffset + (optsBytes opts).length, acc ++ opts)

@[simp] theorem except_bind_ok {e a b : Type} (x : a) (f : a → Except e b) :
    (Except.ok x : Except e a) >>= f = f x := rfl

@[simp] theorem except_bind_error {e a b : Type} (err : e) (f : a → Except e b) :
    (Except.error err : Except e a) >>= f = .error err := rfl

/-! Helper lemmas about buffer reads at an append boundary. -/

theorem pyByte_exact (pre post : List Nat) (x : Nat) :
    pyByte (pre ++ x :: post) pre.length = .ok x := by
  rw [pyByte]
  rw [show pre.length = pre.length + 0 from rfl, List.get?_append_right (Nat.le_add_right _ _)]
  simp

theorem pyByte_exact' (pre post : List Nat) (x : Nat) (i : Nat) (hi : i = pre.length) :
    pyByte (pre ++ x :: post) i = .ok x := by
  subst hi; exact pyByte_exact pre post x

theorem pySlice_exact (pre mid post : List Nat) :
    pySlice (pre ++ (mid ++ post)) pre.length (pre.length + mid.length) = mid := by
  rw [pySlice, List.take_append, List.drop_left, List.take_left]

theorem pySlice_exact' (pre mid post : List Nat) (a b : Nat) (ha : a = pre.length)
    (hb : b = pre.length + mid.length) :
    pySlice (pre ++ (mid ++ post)) a b = mid := by
  subst ha; subst hb; exact pySlice_exact pre mid post

/-!
Claim C5 (get_element_class): the scan stops with None at the FIRST entry in iteration
order whose max_occurrence is < 1, regardless of whether the element is an instance of that
entry's class; only when no max<1 entry is hit earlier does the first isinstance match win.
-/

/-- C5 (amended): get_element_class scans the table in iteration order and at the first
entry whose max occurrence is < 1 returns None (whether or not the element is an instance
of it); otherwise at the first entry whose class the element is an instance of it returns
that class; if the scan runs off the end it returns None. -/
theorem get_element_class_characterization {α : Type} (isInst : α → Nat → Bool) (e : α) :
    (∀ (pre post : List (Nat × Nat × Nat)) (k mn mx : Nat),
        (∀ p ∈ pre, 1 ≤ p.2.2 ∧ isInst e p.1 = false) →
        ((mx < 1 → get_element_class isInst (pre ++ (k, mn, mx) :: post) e = none) ∧
         (1 ≤ mx → isInst e k = true →
            get_element_class isInst (pre ++ (k, mn, mx) :: post) e = some k)))
  ∧ (∀ table : List (Nat × Nat × Nat),
        (∀ p ∈ table, 1 ≤ p.2.2 ∧ isInst e p.1 = false) →
        get_element_class isInst table e = none) := by
  constructor
  · intro pre
    induction pre with
    | nil =>
      intro post k mn mx _
      constructor
      · intro hmx
        simp only [List.nil_append, get_element_class]
        rw [if_pos hmx]
      · intro hmx hinst
        simp only [List.nil_append, get_element_class]
        rw [if_neg (by omega), if_pos hinst]
    | cons p pre ih =>
      intro post k mn mx hpre
      have hp := hpre p (by simp)
      have hrest : ∀ q ∈ pre, 1 ≤ q.2.2 ∧ isInst e q.1 = false := by
        intro q hq; exact hpre q (by simp [hq])
      obtain ⟨pk, pmn, pmx⟩ := p
      have h1 : ¬ (pmx < 1) := by have := hp.1; simp at this ⊢; omega
      have h2 : isInst e pk = false := hp.2
      constructor
      · intro hmx
        simp only [List.cons_append, get_element_class]
        rw [if_neg h1, if_neg (by simp [h2])]
        exact (ih post k mn mx hrest).1 hmx
      · intro hmx hinst
        simp only [List.cons_append, get_element_class]
        rw [if_neg h1, if_neg (by simp [h2])]
        exact (ih post k mn mx hrest).2 hmx hinst
  · intro table htable
    induction table with
    | nil => rfl
    | cons p table ih =>
      have hp := htable p (by simp)
      obtain ⟨pk, pmn, pmx⟩ := p
      have h1 : ¬ (pmx < 1) := by have := hp.1; simp at this ⊢; omega
      have h2 : isInst e pk = false := hp.2
      simp only [get_element_class]
      rw [if_neg h1, if_neg (by simp [h2])]
      exact ih (fun q hq => htable q (by simp [hq]))

/-- C5 counterexample: element 7 is an instance of registered class 7 (max 9 ≥ 1) and of no
other registered class — in particular the only max-0 entry, class 5, is not an ancestor of
it — yet classification returns None (the claim predicts some 7), because the scan aborts at
the unrelated max-0 entry that comes first in iteration order. -/
theorem get_element_class_c5_counterexample :
    get_element_class (fun (e k : Nat) => e == k) [(5, 0, 0), (7, 0, 9)] 7 = none ∧
    (fun (e k : Nat) => e == k) 7 7 = true ∧
    (fun (e k : Nat) => e == k) 7 5 = false ∧
    (1 : Nat) ≤ 9 := by decide

/-- C5 witness: the amended characterization applied at concrete inputs — the max<1 arm on
the counterexample table, and the isinstance-match arm on a table without max-0 entries. -/
theorem get_element_class_c5_witness :
    get_element_class (fun (e k : Nat) => e == k) [(5, 0, 0), (7, 0, 9)] 7 = none ∧
    get_element_class (fun (e k : Nat) => e == k) [(6, 0, 2), (4, 1, 3)] 4 = some 4 := by
  constructor
  · exact ((get_element_class_characterization (fun (e k : Nat) => e == k) 7).1
      [] [(7, 0, 9)] 5 0 0 (by simp)).1 (by decide)
  · exact ((get_element_class_characterization (fun (e k : Nat) => e == k) 4).1
      [(6, 0, 2)] [] 4 1 3 (by decide)).2 (by decide) (by decide)

/-!
Claim C6 (validate_contains): the code raises exactly on a classification failure or a
violated bound, but the error raised for a violated min_occurrence > 1 formats the
MAX occurrence, not the violated min — parsing.py line 68 passes max_occurrence into
"must contain at least \x7b\x7d \x7b\x7ds".  The claim (the error names the violated bound) is the
evident intent — the sibling branches (min == 1 and both max branches) all name the bound
they check — so this is recorded as a code bug.
-/

/-- C6: evaluating validate_contains at the failing input.  Class 7 is registered with
min_occurrence 2 and max_occurrence 5; zero elements violate the min bound 2, but the
raised error names 5 — the max bound — instead. -/
theorem validate_contains_c6_eval :
    validate_contains (fun (e k : Nat) => e == k) (fun _ => "UnknownOption") "SolicitMessage"
      [(7, 2, 5)] [] = .error (.mustContainAtLeast "SolicitMessage" 5 7) ∧
    (5 : Nat) ≠ 2 := by decide

/-!
Claim C3 (unknown-tag fallback): with an explicit declared length, parsing a buffer whose
tag is unregistered yields an UnknownMessage carrying the tag and the following bytes and
does not raise; but with NO length argument (`Message.parse(buffer)`, the documented
entry-point default) UnknownMessage.load_from computes `length - my_offset` with
length = None — a TypeError — while the sibling load_from routines default the length to
the remaining buffer.  The spec's "never raises ... the remaining buffer length is used"
is the evident intent; recorded as a code bug.
-/

/-- C3: evaluating Message.parse at the failing input, tag 254 (unregistered): with no
declared length the call raises (TypeError from None - int); with the declared length it
returns the UnknownMessage the claim describes. -/
theorem message_parse_c3_eval :
    Message.parse cfgEx [254, 7, 8] 0 none = .error .typeError ∧
    Message.parse cfgEx [254, 7, 8] 0 (some 3) = .ok (3, .unknown 254 [7, 8]) ∧
    message_registry 254 = none := by decide

/-!
Claim C8 (tag mismatch): ClientServerMessage.load_from raises a ValueError when the buffer's
tag differs from the variant's fixed tag (messages.py 200-204), but RelayServerMessage
.load_from performs NO such check — it assigns `self.message_type = buffer[offset]`
(messages.py 350), silently overwriting the instance's message_type with the buffer's tag.
-/

/-- C8 (amended): the tag-mismatch error exists only on the client-server side.  Part 1:
ClientServerMessage.load_from on a buffer whose tag differs from the variant's fixed tag
raises the "provided buffer does not contain ... data" ValueError.  Part 2: whenever
RelayServerMessage.load_from succeeds, the resulting message_type is the buffer's tag byte,
whatever fixed tag the invoked subclass had. -/
theorem load_from_tag_check :
    (∀ (cfg : Cfg) (n t tag : Nat) (opts : List Opt) (buffer : List Nat) (offset : Nat)
        (length : Option Nat),
        pyByte buffer offset = .ok tag → tag ≠ t →
        loadClientServer cfg (n + 1) t opts buffer offset length =
          .error (.wrongMessageType (className t)))
  ∧ (∀ (cfg : Cfg) (fuel t : Nat) (opts : List Opt) (buffer : List Nat) (offset : Nat)
        (length : Option Nat) (n : Nat) (m : Message),
        loadRelayServer cfg fuel t opts buffer offset length = .ok (n, m) →
        ∃ (tag hc : Nat) (la pa : List Nat) (resOpts : List Opt),
          pyByte buffer offset = .ok tag ∧ m = .relayServer tag hc la pa resOpts) := by
  constructor
  · intro cfg n t tag opts buffer offset length hbyte hne
    simp only [loadClientServer, hbyte, except_bind_ok]
    rw [if_pos hne]
  · intro cfg fuel t opts buffer offset length n m h
    cases fuel with
    | zero => simp [loadRelayServer] at h
    | succ k =>
      simp only [loadRelayServer] at h
      cases hb : pyByte buffer offset with
      | error e => rw [hb] at h; simp at h
      | ok tag =>
        rw [hb] at h
        cases hb2 : pyByte buffer (offset + 1) with
        | error e => rw [hb2] at h; simp at h
        | ok hc =>
          rw [hb2] at h
          simp only [except_bind_ok] at h
          by_cases hl : (pySlice buffer (offset + 2) (offset + 18)).length ≠ 16
          · rw [if_pos hl] at h; simp at h
          · rw [if_neg hl] at h
            by_cases hp : (pySlice buffer (offset + 18) (offset + 34)).length ≠ 16
            · rw [if_pos hp] at h; simp at h
            · rw [if_neg hp] at h
              cases hloop : parseOptions cfg k buffer offset 34
                  (pyMaxLength buffer offset length) opts with
              | error e => rw [hloop] at h; simp at h
              | ok r =>
                rw [hloop] at h
                simp only [except_bind_ok] at h
                cases hv : messageValidate cfg (.relayServer tag hc
                    (pySlice buffer (offset + 2) (offset + 18))
                    (pySlice buffer (offset + 18) (offset + 34)) r.2) with
                | error e => rw [hv] at h; simp at h
                | ok u =>
                  rw [hv] at h
                  simp only [except_bind_ok, Except.ok.injEq, Prod.mk.injEq] at h
                  exact ⟨tag, hc, _, _, r.2, rfl, h.2.symm⟩

/-- C8 counterexample: a RelayReplyMessage (fixed tag 13) loaded from a buffer whose tag
byte is 12 — the claim predicts an error, but load_from succeeds and the instance's
message_type is silently overwritten with 12. -/
theorem load_relay_c8_counterexample :
    loadRelayServer cfgEx 4 13 [] (12 :: 0 :: (List.replicate 16 0 ++ List.replicate 16 0))
        0 (some 34) =
      .ok (34, .relayServer 12 0 (List.replicate 16 0) (List.replicate 16 0) []) ∧
    (12 : Nat) ≠ 13 := by decide

/-- C8 witness: both parts of the amended theorem at concrete inputs — a Solicit-tagged
load (fixed tag 1) refusing a buffer whose tag is 2, and the relay-side success shape on
the counterexample buffer. -/
theorem load_from_tag_check_witness :
    loadClientServer cfgEx 4 1 [] [2, 0, 0, 0] 0 (some 4) =
      .error (.wrongMessageType "SolicitMessage") ∧
    (∃ (tag hc : Nat) (la pa : List Nat) (resOpts : List Opt),
      pyByte (12 :: 0 :: (List.replicate 16 0 ++ List.replicate 16 0)) 0 = .ok tag ∧
      (Message.relayServer 12 0 (List.replicate 16 0) (List.replicate 16 0) [] : Message) =
        .relayServer tag hc la pa resOpts) := by
  constructor
  · exact load_from_tag_check.1 cfgEx 3 1 2 [] [2, 0, 0, 0] 0 (some 4) (by decide) (by decide)
  · exact load_from_tag_check.2 cfgEx 4 13 []
      (12 :: 0 :: (List.replicate 16 0 ++ List.replicate 16 0)) 0 (some 34) 34
      (.relayServer 12 0 (List.replicate 16 0) (List.replicate 16 0) []) (by decide)

/-!
Claim C9 (relay-chain corruption): wrap_response raises when a relay-message option wraps
neither a forward-relay nor a client-server message.
-/

theorem wrapOptions_error_of_corrupt (response rm : Message)
    (hforw : isRelayForwardB rm = false) (hcs : isClientServerB rm = false) :
    ∀ opts : List Opt, (Opt.relayMsg rm) ∈ opts →
      ∃ e, wrapOptions response opts = .error e := by
  intro opts hmem
  induction opts with
  | nil => cases hmem
  | cons o rest ih =>
    rcases List.mem_cons.mp hmem with heq | hmem2
    · subst heq
      refine ⟨.relayChainCorrupt, ?_⟩
      simp [wrapOptions, echo_to_relay, hforw, hcs]
    · obtain ⟨e, he⟩ := ih hmem2
      cases o with
      | generic c d =>
        refine ⟨e, ?_⟩
        by_cases h18 : (c == 18) = true <;>
          simp [wrapOptions, echo_to_relay, h18, he]
      | relayMsg rm2 =>
        by_cases hf : isRelayForwardB rm2 = true
        · cases hw : wrap_response rm2 response with
          | error e2 =>
            refine ⟨e2, ?_⟩
            simp [wrapOptions, echo_to_relay, hf, hw]
          | ok inner =>
            refine ⟨e, ?_⟩
            simp [wrapOptions, echo_to_relay, hf, hw, he]
        · by_cases hc2 : isClientServerB rm2 = true
          · refine ⟨e, ?_⟩
            simp [wrapOptions, echo_to_relay, hf, hc2, he]
          · refine ⟨.relayChainCorrupt, ?_⟩
            simp [wrapOptions, echo_to_relay, hf, hc2]

/-- C9: a RelayForwardMessage one of whose relay-message options embeds a message that is
neither a RelayForwardMessage nor a ClientServerMessage makes wrap_response raise.  (Such an
option never takes the echo branch: echo_to_relay is false on the relay-message option.) -/
theorem wrap_response_corrupt_chain (response rm : Message) (hc : Nat) (la pa : List Nat)
    (opts : List Opt) (hmem : (Opt.relayMsg rm) ∈ opts)
    (hforw : isRelayForwardB rm = false) (hcs : isClientServerB rm = false) :
    ∃ e, wrap_response (.relayServer 12 hc la pa opts) response = .error e := by
  obtain ⟨e, he⟩ := wrapOptions_error_of_corrupt response rm hforw hcs opts hmem
  exact ⟨e, by simp [wrap_response, he]⟩

/-!
Claim C2 (wrap_response on a relay chain): wrapping succeeds and produces exactly the
transformation the spec describes (specWrapMessage), preserving hop count, addresses and
the chain's nesting depth.
-/

theorem chainDepth_of_clientServer (x : Message) (h : isClientServerB x = true) :
    chainDepth x = 0 := by
  cases x with
  | unknown t d => simp [isClientServerB] at h
  | clientServer t tid opts => simp [chainDepth]
  | relayServer t hc la pa opts => simp [isClientServerB] at h

theorem isClientServerB_false_of_forward (x : Message) (h : isRelayForwardB x = true) :
    isClientServerB x = false := by
  cases x with
  | unknown t d => simp [isRelayForwardB] at h
  | clientServer t tid opts => simp [isRelayForwardB] at h
  | relayServer t hc la pa opts => simp [isClientServerB]

theorem isRelayForwardB_of_chain (x : Message) (h : isChainMessage x = true) :
    isRelayForwardB x = true := by
  cases x with
  | unknown t d => simp [isChainMessage] at h
  | clientServer t tid opts => simp [isChainMessage] at h
  | relayServer t hc la pa opts =>
    simp [isChainMessage] at h
    simp [isRelayForwardB, h.1]

theorem wrapAux : ∀ n : Nat,
    (∀ (response m : Message), isChainMessage m = true → isClientServerB response = true →
      msgFuel m ≤ n →
      wrap_response m response = .ok (specWrapMessage response m) ∧
      chainDepth (specWrapMessage response m) = chainDepth m)
    ∧ (∀ (response : Message) (opts : List Opt), isChainOptions opts = true →
      isClientServerB response = true → optsFuel opts ≤ n →
      wrapOptions response opts = .ok (specWrapOptions response opts) ∧
      chainDepthOptions (specWrapOptions response opts) = chainDepthOptions opts) := by
  intro n
  induction n with
  | zero =>
    constructor
    · intro response m hchain hresp hfuel
      exfalso
      cases m <;> simp [msgFuel] at hfuel
    · intro response opts hchain hresp hfuel
      cases opts with
      | nil => exact ⟨rfl, rfl⟩
      | cons o rest => exfalso; simp [optsFuel] at hfuel
  | succ k ih =>
    constructor
    · intro response m hchain hresp hfuel
      cases m with
      | unknown t d => simp [isChainMessage] at hchain
      | clientServer t tid opts => simp [isChainMessage] at hchain
      | relayServer t hc la pa opts =>
        simp only [isChainMessage, Bool.and_eq_true, beq_iff_eq] at hchain
        obtain ⟨ht, hopts⟩ := hchain
        subst ht
        have hfo : optsFuel opts ≤ k := by simp [msgFuel] at hfuel; omega
        obtain ⟨hw, hd⟩ := ih.2 response opts hopts hresp hfo
        refine ⟨?_, ?_⟩
        · simp [wrap_response, hw, specWrapMessage]
        · simp [specWrapMessage, chainDepth, hd]
    · intro response opts hchain hresp hfuel
      cases opts with
      | nil => exact ⟨rfl, rfl⟩
      | cons o rest =>
        simp only [isChainOptions, Bool.and_eq_true] at hchain
        obtain ⟨ho, hrest⟩ := hchain
        have hfr : optsFuel rest ≤ k := by simp [optsFuel] at hfuel; omega
        have hfo : optFuel o ≤ k := by simp [optsFuel] at hfuel; omega
        obtain ⟨hwtail, hdtail⟩ := ih.2 response rest hrest hresp hfr
        cases o with
        | generic c d =>
          by_cases h18 : (c == 18) = true
          · exact ⟨by simp [wrapOptions, echo_to_relay, h18, hwtail, specWrapOptions],
              by simp [specWrapOptions, echo_to_relay, h18, chainDepthOptions, hdtail]⟩
          · exact ⟨by simp [wrapOptions, echo_to_relay, h18, hwtail, specWrapOptions],
              by simp [specWrapOptions, echo_to_relay, h18, chainDepthOptions, hdtail]⟩
        | relayMsg rm =>
          simp only [isChainOption, Bool.or_eq_true] at ho
          by_cases hf : isRelayForwardB rm = true
          · have hcm : isChainMessage rm = true := by
              rcases ho with h1 | h1
              · exact h1
              · rw [isClientServerB_false_of_forward rm hf] at h1; cases h1
            have hfm : msgFuel rm ≤ k := by simp [optFuel] at hfo; omega
            obtain ⟨hwm, hdm⟩ := ih.1 response rm hcm hresp hfm
            refine ⟨?_, ?_⟩
            · simp [wrapOptions, echo_to_relay, hf, hwm, hwtail, specWrapOptions]
            · simp [specWrapOptions, echo_to_relay, hf, chainDepthOptions, hdm]
          · have hcs2 : isClientServerB rm = true := by
              rcases ho with h1 | h1
              · exact absurd (isRelayForwardB_of_chain rm h1) hf
              · exact h1
            refine ⟨?_, ?_⟩
            · simp [wrapOptions, echo_to_relay, hf, hcs2, hwtail, specWrapOptions]
            · simp [specWrapOptions, echo_to_relay, hf, hcs2, chainDepthOptions,
                chainDepth_of_clientServer response hresp,
                chainDepth_of_clientServer rm hcs2]

/-- C2: on a RelayForwardMessage whose options form a relay chain (every relay-message
option embeds either a further forward-relay chain or a client-server message),
wrap_response succeeds and returns exactly the spec's transformation — a RelayReplyMessage
(tag 13) with the same hop_count, link_address and peer_address, echo-marked options copied
unchanged, the relay-message option around an inner forward-relay replaced by that inner
message's recursive wrap, the one around a client-server message replaced by the given
response, all other options dropped (see specWrapMessage/specWrapOptions) — and the chain
depth of the result equals the chain depth of the original. -/
theorem wrap_response_on_chain (response m : Message)
    (hchain : isChainMessage m = true) (hresp : isClientServerB response = true) :
    wrap_response m response = .ok (specWrapMessage response m) ∧
    chainDepth (specWrapMessage response m) = chainDepth m :=
  (wrapAux (msgFuel m)).1 response m hchain hresp le_rfl

/-- C2 witness: the doubly nested scenario of the spec — relay A wraps relay B wraps a
Solicit; wrapping a Reply yields reply-relay A wrapping reply-relay B wrapping the Reply,
with depth 2 preserved. -/
theorem wrap_response_on_chain_witness :
    wrap_response
        (.relayServer 12 1 (List.replicate 16 1) (List.replicate 16 2)
          [.generic 18 [9], .relayMsg (.relayServer 12 0 (List.replicate 16 3)
            (List.replicate 16 4) [.relayMsg (.clientServer 1 [5, 5, 5] [])])])
        (.clientServer 7 [5, 5, 5] []) =
      .ok (specWrapMessage (.clientServer 7 [5, 5, 5] [])
        (.relayServer 12 1 (List.replicate 16 1) (List.replicate 16 2)
          [.generic 18 [9], .relayMsg (.relayServer 12 0 (List.replicate 16 3)
            (List.replicate 16 4) [.relayMsg (.clientServer 1 [5, 5, 5] [])])])) ∧
    chainDepth (specWrapMessage (.clientServer 7 [5, 5, 5] [])
        (.relayServer 12 1 (List.replicate 16 1) (List.replicate 16 2)
          [.generic 18 [9], .relayMsg (.relayServer 12 0 (List.replicate 16 3)
            (List.replicate 16 4) [.relayMsg (.clientServer 1 [5, 5, 5] [])])])) =
      chainDepth (.relayServer 12 1 (List.replicate 16 1) (List.replicate 16 2)
          [.generic 18 [9], .relayMsg (.relayServer 12 0 (List.replicate 16 3)
            (List.replicate 16 4) [.relayMsg (.clientServer 1 [5, 5, 5] [])])]) :=
  wrap_response_on_chain (.clientServer 7 [5, 5, 5] [])
    (.relayServer 12 1 (List.replicate 16 1) (List.replicate 16 2)
      [.generic 18 [9], .relayMsg (.relayServer 12 0 (List.replicate 16 3)
        (List.replicate 16 4) [.relayMsg (.clientServer 1 [5, 5, 5] [])])])
    (by decide) (by decide)

/-!
Claim C7 (IAID uniqueness): the source guards the uniqueness bookkeeping with `if iaid:` —
Python truthiness — so the check only applies to options whose iaid is present AND nonzero;
two options of the same classified kind both carrying iaid 0 pass validation.
-/

theorem iaidLookup_insert (s : List (Option Nat × List Nat)) (k : Option Nat) (l : List Nat)
    (c : Option Nat) :
    iaidLookup (iaidInsert s k l) c = if k = c then l else iaidLookup s c := by
  induction s with
  | nil => simp [iaidInsert, iaidLookup]
  | cons p rest ih =>
    obtain ⟨k2, w⟩ := p
    simp only [iaidInsert]
    by_cases hk : k2 = k
    · subst hk
      simp only [if_pos rfl, iaidLookup]
      by_cases hc : k2 = c
      · simp [hc]
      · simp [hc]
    · simp only [if_neg hk, iaidLookup]
      by_cases hc : k2 = c
      · have hkc : ¬ (k = c) := fun h => hk (hc.trans h.symm)
        simp [hc, hkc]
      · simp [hc, ih]

theorem iaidCheckLoop_stuck (cfg : Cfg) (v : Nat) (c : Option Nat) (o2 : Opt)
    (hco : get_element_class cfg.isInst cfg.csTable o2 = c) (hio : optIaid o2 = some v)
    (hv : v ≠ 0) :
    ∀ (l2 l3 : List Opt) (s : List (Option Nat × List Nat)), v ∈ iaidLookup s c →
      iaidCheckLoop cfg s (l2 ++ o2 :: l3) ≠ .ok () := by
  intro l2
  induction l2 with
  | nil =>
    intro l3 s hmem
    simp only [List.nil_append, iaidCheckLoop, hio, Option.getD_some, hco]
    rw [if_pos hv, if_pos hmem]
    simp
  | cons o rest ih =>
    intro l3 s hmem
    simp only [List.cons_append, iaidCheckLoop]
    cases hoi : optIaid o with
    | none =>
      simp only [Option.getD_none, ne_eq, not_true_eq_false, if_false]
      exact ih l3 s hmem
    | some w =>
      simp only [Option.getD_some]
      by_cases hw : w ≠ 0
      · rw [if_pos hw]
        by_cases hmem2 : w ∈ iaidLookup s (get_element_class cfg.isInst cfg.csTable o)
        · rw [if_pos hmem2]; simp
        · rw [if_neg hmem2]
          apply ih l3
          rw [iaidLookup_insert]
          by_cases hc : get_element_class cfg.isInst cfg.csTable o = c
          · rw [if_pos hc, hc]
            exact List.mem_append_left _ hmem
          · rw [if_neg hc]; exact hmem
      · rw [if_neg hw]
        exact ih l3 s hmem

theorem iaidCheckLoop_dup (cfg : Cfg) (v : Nat) (c : Option Nat) (o1 o2 : Opt)
    (h1 : get_element_class cfg.isInst cfg.csTable o1 = c)
    (h2 : get_element_class cfg.isInst cfg.csTable o2 = c)
    (hi1 : optIaid o1 = some v) (hi2 : optIaid o2 = some v) (hv : v ≠ 0) :
    ∀ (l1 l2 l3 : List Opt) (s : List (Option Nat × List Nat)),
      iaidCheckLoop cfg s (l1 ++ o1 :: l2 ++ o2 :: l3) ≠ .ok () := by
  intro l1
  induction l1 with
  | nil =>
    intro l2 l3 s
    simp only [List.nil_append, iaidCheckLoop, hi1, Option.getD_some, h1]
    rw [if_pos hv]
    by_cases hmem : v ∈ iaidLookup s c
    · rw [if_pos hmem]; simp
    · rw [if_neg hmem]
      apply iaidCheckLoop_stuck cfg v c o2 h2 hi2 hv l2 l3
      rw [iaidLookup_insert, if_pos rfl]
      exact List.mem_append_right _ (List.mem_singleton.mpr rfl)
  | cons o rest ih =>
    intro l2 l3 s
    simp only [List.cons_append, iaidCheckLoop]
    cases hoi : optIaid o with
    | none =>
      simp only [Option.getD_none, ne_eq, not_true_eq_false, if_false]
      exact ih l2 l3 s
    | some w =>
      simp only [Option.getD_some]
      by_cases hw : w ≠ 0
      · rw [if_pos hw]
        by_cases hmem2 : w ∈ iaidLookup s (get_element_class cfg.isInst cfg.csTable o)
        · rw [if_pos hmem2]; simp
        · rw [if_neg hmem2]
          exact ih l2 l3 _
      · rw [if_neg hw]
        exact ih l2 l3 s

theorem iaidCheckLoop_ok (cfg : Cfg) :
    ∀ (opts : List Opt) (s : List (Option Nat × List Nat)),
      (∀ (c : Option Nat) (w : Nat), w ∈ iaidLookup s c → ∀ o ∈ opts,
        get_element_class cfg.isInst cfg.csTable o = c →
        ∀ u, optIaid o = some u → u ≠ 0 → u ≠ w) →
      opts.Pairwise (fun a b => ∀ (va vb : Nat), optIaid a = some va → optIaid b = some vb →
        va ≠ 0 → vb ≠ 0 →
        get_element_class cfg.isInst cfg.csTable a = get_element_class cfg.isInst cfg.csTable b →
        va ≠ vb) →
      iaidCheckLoop cfg s opts = .ok () := by
  intro opts
  induction opts with
  | nil => intro s _ _; rfl
  | cons o rest ih =>
    intro s hinv hpw
    rw [List.pairwise_cons] at hpw
    obtain ⟨hhead, htail⟩ := hpw
    simp only [iaidCheckLoop]
    cases hoi : optIaid o with
    | none =>
      simp only [Option.getD_none, ne_eq, not_true_eq_false, if_false]
      exact ih s (fun c w hw o2 ho2 => hinv c w hw o2 (List.mem_cons_of_mem _ ho2)) htail
    | some v =>
      simp only [Option.getD_some]
      by_cases hv : v ≠ 0
      · rw [if_pos hv]
        have hnotmem : v ∉ iaidLookup s (get_element_class cfg.isInst cfg.csTable o) := by
          intro hmem
          exact hinv (get_element_class cfg.isInst cfg.csTable o) v hmem o
            (List.mem_cons_self o rest) rfl v hoi hv rfl
        rw [if_neg hnotmem]
        apply ih _ _ htail
        intro c w hw o2 ho2 hg2 u hu hnz
        rw [iaidLookup_insert] at hw
        by_cases hc : get_element_class cfg.isInst cfg.csTable o = c
        · rw [if_pos hc] at hw
          rcases List.mem_append.mp hw with hold | hnew
          · exact hinv c w (hc ▸ hold) o2 (List.mem_cons_of_mem _ ho2) hg2 u hu hnz
          · have hwv : w = v := List.mem_singleton.mp hnew
            intro huw
            exact hhead o2 ho2 v u hoi hu hv hnz (hc.trans hg2.symm) ((huw.trans hwv).symm)
        · rw [if_neg hc] at hw
          exact hinv c w hw o2 (List.mem_cons_of_mem _ ho2) hg2 u hu hnz
      · rw [if_neg hv]
        exact ih s (fun c w hw o2 ho2 => hinv c w hw o2 (List.mem_cons_of_mem _ ho2)) htail

/-- C7 (amended): ClientServerMessage validation fails whenever two options of the same
classified kind carry identical NONZERO iaid values; and the uniqueness check passes
whenever, within each classified kind, all nonzero iaid values differ.  Options whose iaid
is absent or 0 are exempt (`if iaid:` is Python truthiness, and 0 is falsy). -/
theorem clientserver_validate_iaid (cfg : Cfg) :
    (∀ (t : Nat) (tid : List Nat) (l1 l2 l3 : List Opt) (o1 o2 : Opt) (c : Option Nat)
        (v : Nat),
        get_element_class cfg.isInst cfg.csTable o1 = c →
        get_element_class cfg.isInst cfg.csTable o2 = c →
        optIaid o1 = some v → optIaid o2 = some v → v ≠ 0 →
        messageValidate cfg (.clientServer t tid (l1 ++ o1 :: l2 ++ o2 :: l3)) ≠ .ok ())
  ∧ (∀ opts : List Opt,
        opts.Pairwise (fun a b => ∀ (va vb : Nat), optIaid a = some va →
          optIaid b = some vb → va ≠ 0 → vb ≠ 0 →
          get_element_class cfg.isInst cfg.csTable a =
            get_element_class cfg.isInst cfg.csTable b →
          va ≠ vb) →
        iaidCheckLoop cfg [] opts = .ok ()) := by
  constructor
  · intro t tid l1 l2 l3 o1 o2 c v h1 h2 hi1 hi2 hv hok
    rw [messageValidate] at hok
    by_cases htid : ¬ (tid.length = 3 ∧ tid.all (· < 256))
    · rw [if_pos htid] at hok; cases hok
    · rw [if_neg htid] at hok
      cases hvc : validate_contains cfg.isInst optClassName (className t) cfg.csTable
          (l1 ++ o1 :: l2 ++ o2 :: l3) with
      | error e => rw [hvc] at hok; cases hok
      | ok u =>
        cases u
        rw [hvc] at hok
        cases hov : optionsValidate cfg (l1 ++ o1 :: l2 ++ o2 :: l3) with
        | error e => rw [hov] at hok; simp at hok
        | ok u2 =>
          cases u2
          rw [hov] at hok
          simp only [except_bind_ok] at hok
          exact iaidCheckLoop_dup cfg v c o1 o2 h1 h2 hi1 hi2 hv l1 l2 l3 [] hok
  · intro opts hpw
    apply iaidCheckLoop_ok cfg opts [] _ hpw
    intro c w hw
    simp [iaidLookup] at hw

/-- C7 counterexample: two DISTINCT options of the same classified kind carrying the
IDENTICAL iaid value 0 — the claim predicts validation failure, but the whole
ClientServerMessage validation succeeds, because `if iaid:` skips falsy iaids. -/
theorem clientserver_validate_iaid_counterexample :
    messageValidate cfgEx
        (.clientServer 1 [0, 0, 0] [.generic 3 [0, 0, 0, 0, 5], .generic 3 [0, 0, 0, 0, 6]]) =
      .ok () ∧
    optIaid (.generic 3 [0, 0, 0, 0, 5]) = some 0 ∧
    optIaid (.generic 3 [0, 0, 0, 0, 6]) = some 0 ∧
    get_element_class cfgEx.isInst cfgEx.csTable (.generic 3 [0, 0, 0, 0, 5]) =
      get_element_class cfgEx.isInst cfgEx.csTable (.generic 3 [0, 0, 0, 0, 6]) ∧
    (Opt.generic 3 [0, 0, 0, 0, 5]) ≠ (Opt.generic 3 [0, 0, 0, 0, 6]) := by decide

/-- C7 witness: the amended theorem at concrete inputs — duplicate nonzero iaid 1 in the
same classified kind fails validation; distinct nonzero iaids 1 and 2 pass the check. -/
theorem clientserver_validate_iaid_witness :
    messageValidate cfgEx
        (.clientServer 1 [0, 0, 0] [.generic 3 [0, 0, 0, 1], .generic 3 [0, 0, 0, 1]]) ≠
      .ok () ∧
    iaidCheckLoop cfgEx [] [.generic 3 [0, 0, 0, 1], .generic 3 [0, 0, 0, 2]] = .ok () := by
  constructor
  · exact (clientserver_validate_iaid cfgEx).1 1 [0, 0, 0] [] [] []
      (.generic 3 [0, 0, 0, 1]) (.generic 3 [0, 0, 0, 1]) (some 0) 1
      (by decide) (by decide) (by decide) (by decide) (by decide)
  · apply (clientserver_validate_iaid cfgEx).2
    refine List.Pairwise.cons ?_ (List.Pairwise.cons ?_ List.Pairwise.nil)
    · intro b hb va vb hva hvb hna hnb _
      have hb2 : b = .generic 3 [0, 0, 0, 2] := by
        rcases List.mem_singleton.mp hb with h; exact h
      subst hb2
      simp only [optIaid] at hva hvb
      simp at hva hvb
      omega
    · intro b hb
      cases hb

/-!
Claim C10 (load_from appends): the option loop appends each parsed option to the instance's
existing options list (`self.options.append(option)`), so after a successful load the list
is the pre-existing options followed by the freshly parsed ones.
-/

theorem parseOptions_acc (cfg : Cfg) :
    ∀ (fuel : Nat) (buffer : List Nat) (offset myOffset maxLength : Nat) (acc : List Opt),
      parseOptions cfg fuel buffer offset myOffset maxLength acc =
        (parseOptions cfg fuel buffer offset myOffset maxLength []).map
          (fun r => (r.1, acc ++ r.2)) := by
  intro fuel
  induction fuel with
  | zero =>
    intro buffer offset myOffset maxLength acc
    by_cases h : maxLength > myOffset
    · rw [parseOptions, if_pos h, parseOptions, if_pos h]
      simp [Except.map]
    · rw [parseOptions, if_neg h, parseOptions, if_neg h]
      simp [Except.map]
  | succ n ih =>
    intro buffer offset myOffset maxLength acc
    by_cases h : maxLength > myOffset
    · rw [parseOptions, if_pos h, parseOptions, if_pos h]
      cases ho : optionParse cfg n buffer (offset + myOffset) with
      | error e => simp [ho, Except.map]
      | ok r =>
        simp only [ho, except_bind_ok]
        rw [ih buffer offset (myOffset + r.1) maxLength (acc ++ [r.2]),
          ih buffer offset (myOffset + r.1) maxLength ([] ++ [r.2])]
        cases parseOptions cfg n buffer offset (myOffset + r.1) maxLength [] with
        | error e => simp [Except.map]
        | ok q => simp [Except.map]
    · rw [parseOptions, if_neg h, parseOptions, if_neg h]
      simp [Except.map]

/-- C10: a successful load_from on an instance whose options list already holds
`initOpts` yields the message whose options are `initOpts` followed by exactly the options
the loop parses from the buffer (the result of the same loop started from an empty list);
the loop appends rather than replaces.  Both the client-server and the relay variant. -/
theorem load_from_appends_options (cfg : Cfg) :
    (∀ (fuel t : Nat) (initOpts : List Opt) (buffer : List Nat) (offset : Nat)
        (length : Option Nat) (n t2 : Nat) (tid : List Nat) (resOpts : List Opt),
        loadClientServer cfg fuel t initOpts buffer offset length =
          .ok (n, .clientServer t2 tid resOpts) →
        ∃ newOpts, resOpts = initOpts ++ newOpts ∧
          parseOptions cfg (fuel - 1) buffer offset 4 (pyMaxLength buffer offset length) [] =
            .ok (n, newOpts))
  ∧ (∀ (fuel t : Nat) (initOpts : List Opt) (buffer : List Nat) (offset : Nat)
        (length : Option Nat) (n t2 hc2 : Nat) (la2 pa2 : List Nat) (resOpts : List Opt),
        loadRelayServer cfg fuel t initOpts buffer offset length =
          .ok (n, .relayServer t2 hc2 la2 pa2 resOpts) →
        ∃ newOpts, resOpts = initOpts ++ newOpts ∧
          parseOptions cfg (fuel - 1) buffer offset 34 (pyMaxLength buffer offset length) [] =
            .ok (n, newOpts)) := by
  constructor
  · intro fuel t initOpts buffer offset length n t2 tid resOpts h
    cases fuel with
    | zero => simp [loadClientServer] at h
    | succ k =>
      simp only [loadClientServer] at h
      cases hb : pyByte buffer offset with
      | error e => rw [hb] at h; simp at h
      | ok tag =>
        rw [hb] at h
        simp only [except_bind_ok] at h
        by_cases htag : tag ≠ t
        · rw [if_pos htag] at h; cases h
        · rw [if_neg htag] at h
          rw [parseOptions_acc] at h
          cases hp : parseOptions cfg k buffer offset 4
              (pyMaxLength buffer offset length) [] with
          | error e => rw [hp] at h; simp [Except.map] at h
          | ok q =>
            obtain ⟨q1, q2⟩ := q
            rw [hp] at h
            simp only [Except.map, except_bind_ok] at h
            cases hv : messageValidate cfg
                (.clientServer t (pySlice buffer (offset + 1) (offset + 4))
                  (initOpts ++ q2)) with
            | error e => rw [hv] at h; simp at h
            | ok u =>
              cases u
              rw [hv] at h
              simp only [except_bind_ok, Except.ok.injEq, Prod.mk.injEq] at h
              obtain ⟨hn, hm⟩ := h
              cases hm
              exact ⟨q2, rfl, by rw [Nat.add_sub_cancel, hp, hn]⟩
  · intro fuel t initOpts buffer offset length n t2 hc2 la2 pa2 resOpts h
    cases fuel with
    | zero => simp [loadRelayServer] at h
    | succ k =>
      simp only [loadRelayServer] at h
      cases hb : pyByte buffer offset with
      | error e => rw [hb] at h; simp at h
      | ok tag =>
        rw [hb] at h
        cases hb2 : pyByte buffer (offset + 1) with
        | error e => rw [hb2] at h; simp at h
        | ok hc =>
          rw [hb2] at h
          simp only [except_bind_ok] at h
          by_cases hl : (pySlice buffer (offset + 2) (offset + 18)).length ≠ 16
          · rw [if_pos hl] at h; cases h
          · rw [if_neg hl] at h
            by_cases hpa : (pySlice buffer (offset + 18) (offset + 34)).length ≠ 16
            · rw [if_pos hpa] at h; cases h
            · rw [if_neg hpa] at h
              rw [parseOptions_acc] at h
              cases hp : parseOptions cfg k buffer offset 34
                  (pyMaxLength buffer offset length) [] with
              | error e => rw [hp] at h; simp [Except.map] at h
              | ok q =>
                obtain ⟨q1, q2⟩ := q
                rw [hp] at h
                simp only [Except.map, except_bind_ok] at h
                cases hv : messageValidate cfg
                    (.relayServer tag hc (pySlice buffer (offset + 2) (offset + 18))
                      (pySlice buffer (offset + 18) (offset + 34)) (initOpts ++ q2)) with
                | error e => rw [hv] at h; simp at h
                | ok u =>
                  cases u
                  rw [hv] at h
                  simp only [except_bind_ok, Except.ok.injEq, Prod.mk.injEq] at h
                  obtain ⟨hn, hm⟩ := h
                  cases hm
                  exact ⟨q2, rfl, by rw [Nat.add_sub_cancel, hp, hn]⟩

/-- C10 witness: the client-server part of the theorem at a concrete load — an instance
whose options already hold one option, loaded from a buffer containing one further option,
ends with both in order. -/
theorem load_from_appends_options_witness :
    loadClientServer cfgEx 6 1 [.generic 7 []] [1, 0, 0, 0, 0, 5, 0, 1, 9] 0 (some 9) =
      .ok (9, .clientServer 1 [0, 0, 0] [.generic 7 [], .generic 5 [9]]) ∧
    (∃ newOpts, [Opt.generic 7 [], .generic 5 [9]] = [Opt.generic 7 []] ++ newOpts ∧
      parseOptions cfgEx (6 - 1) [1, 0, 0, 0, 0, 5, 0, 1, 9] 0 4
        (pyMaxLength [1, 0, 0, 0, 0, 5, 0, 1, 9] 0 (some 9)) [] = .ok (9, newOpts)) := by
  constructor
  · decide
  · exact (load_from_appends_options cfgEx).1 6 1 [.generic 7 []]
      [1, 0, 0, 0, 0, 5, 0, 1, 9] 0 (some 9) 9 1 [0, 0, 0]
      [.generic 7 [], .generic 5 [9]] (by decide)

/-!
Claims C1 and C4 (round trip and exact consumption): supporting lemmas.
-/

theorem pyByte_at (pre mid post : List Nat) (i j : Nat) (h : i < mid.length)
    (hj : j = pre.length + i) :
    pyByte ((pre ++ mid) ++ post) j = .ok mid[i] := by
  subst hj
  rw [pyByte, List.append_assoc]
  rw [List.get?_append_right (Nat.le_add_right _ _)]
  simp only [Nat.add_sub_cancel_left]
  rw [List.get?_append h, List.get?_eq_getElem?, List.getElem?_eq_getElem h]

theorem optionsValidate_cons (cfg : Cfg) (o : Opt) (rest : List Opt)
    (h : optionsValidate cfg (o :: rest) = .ok ()) :
    optionValidate cfg o = .ok () ∧ optionsValidate cfg rest = .ok () := by
  simp only [optionsValidate] at h
  cases hvo : optionValidate cfg o with
  | error e => rw [hvo] at h; cases h
  | ok u =>
    cases u
    rw [hvo] at h
    simp only [except_bind_ok] at h
    exact ⟨rfl, h⟩

theorem optValidate_generic (cfg : Cfg) (c : Nat) (d : List Nat)
    (h : optionValidate cfg (.generic c d) = .ok ()) :
    c < 65536 ∧ d.length < 65536 ∧ d.all (· < 256) = true := by
  simp only [optionValidate] at h
  by_cases hc : c < 65536 ∧ d.length < 65536 ∧ d.all (· < 256) = true
  · exact hc
  · rw [if_neg hc] at h; cases h

theorem optValidate_relayMsg (cfg : Cfg) (m : Message)
    (h : optionValidate cfg (.relayMsg m) = .ok ()) :
    (msgBytes m).length < 65536 ∧ messageValidate cfg m = .ok () := by
  simp only [optionValidate] at h
  by_cases hl : (msgBytes m).length < 65536
  · rw [if_pos hl] at h; exact ⟨hl, h⟩
  · rw [if_neg hl] at h; cases h

theorem csValidate_parts (cfg : Cfg) (t : Nat) (tid : List Nat) (opts : List Opt)
    (h : messageValidate cfg (.clientServer t tid opts) = .ok ()) :
    tid.length = 3 ∧ tid.all (· < 256) = true ∧ optionsValidate cfg opts = .ok () := by
  simp only [messageValidate] at h
  by_cases hc : ¬ (tid.length = 3 ∧ tid.all (· < 256))
  · rw [if_pos hc] at h; cases h
  · rw [if_neg hc] at h
    rw [not_not] at hc
    refine ⟨hc.1, hc.2, ?_⟩
    cases hvc : validate_contains cfg.isInst optClassName (className t) cfg.csTable opts with
    | error e => rw [hvc] at h; cases h
    | ok u =>
      cases u
      rw [hvc] at h
      simp only [except_bind_ok] at h
      cases hov : optionsValidate cfg opts with
      | error e => rw [hov] at h; cases h
      | ok u2 => cases u2; rfl

theorem relayValidate_parts (cfg : Cfg) (t hc : Nat) (la pa : List Nat) (opts : List Opt)
    (h : messageValidate cfg (.relayServer t hc la pa opts) = .ok ()) :
    hc < 256 ∧ la.length = 16 ∧ pa.length = 16 ∧ optionsValidate cfg opts = .ok () := by
  simp only [messageValidate] at h
  by_cases h1 : ¬ (hc < 256)
  · rw [if_pos h1] at h; cases h
  · rw [if_neg h1] at h
    by_cases h2 : ¬ (la.length = 16 ∧ la.all (· < 256) ∧ la.head? ≠ some 255)
    · rw [if_pos h2] at h; cases h
    · rw [if_neg h2] at h
      by_cases h3 : ¬ (pa.length = 16 ∧ pa.all (· < 256) ∧ pa.head? ≠ some 255)
      · rw [if_pos h3] at h; cases h
      · rw [if_neg h3] at h
        rw [not_not] at h1 h2 h3
        refine ⟨h1, h2.1, h3.1, ?_⟩
        cases hvc : validate_contains cfg.isInst optClassName (className t)
            cfg.relayTable opts with
        | error e => rw [hvc] at h; cases h
        | ok u =>
          cases u
          rw [hvc] at h
          simp only [except_bind_ok] at h
          exact h

theorem optBytes_length_ge_four (o : Opt) : 4 ≤ (optBytes o).length := by
  cases o <;> simp [optBytes]

theorem pyMaxLength_some (buffer : List Nat) (offset L : Nat) (h : L ≠ 0) :
    pyMaxLength buffer offset (some L) = L := by
  cases L with
  | zero => exact absurd rfl h
  | succ k => rfl

theorem rt_load_unknown (cfg : Cfg) (t : Nat) (d : List Nat) (pre rest : List Nat)
    (hval : messageValidate cfg (.unknown t d) = .ok ()) :
    loadUnknown cfg ((pre ++ msgBytes (.unknown t d)) ++ rest) pre.length
      (some (msgBytes (.unknown t d)).length) =
      .ok ((msgBytes (.unknown t d)).length, .unknown t d) := by
  have hlen : (msgBytes (.unknown t d)).length = d.length + 1 := by simp [msgBytes]
  have hbyte : pyByte ((pre ++ msgBytes (.unknown t d)) ++ rest) pre.length = .ok t := by
    have := pyByte_at pre (msgBytes (.unknown t d)) rest 0 pre.length
      (by simp [msgBytes]) (by omega)
    simpa [msgBytes] using this
  have hdata : pySlice ((pre ++ msgBytes (.unknown t d)) ++ rest) (pre.length + 1)
      (pre.length + (d.length + 1)) = d := by
    have hsplit : ((pre ++ msgBytes (.unknown t d)) ++ rest) =
        ((pre ++ [t]) ++ (d ++ rest)) := by simp [msgBytes]
    rw [hsplit]
    exact pySlice_exact' (pre ++ [t]) d rest _ _ (by simp)
      (by simp [List.length_append]; omega)
  rw [hlen]
  simp only [loadUnknown, hbyte, except_bind_ok, hdata, hval]

theorem rt_load_cs (cfg : Cfg) (t : Nat) (tid : List Nat) (opts : List Opt)
    (pre rest : List Nat) (n2 : Nat)
    (hval : messageValidate cfg (.clientServer t tid opts) = .ok ())
    (htl : tid.length = 3)
    (hloop : parseOptions cfg n2 (((pre ++ (t :: tid)) ++ optsBytes opts) ++ rest)
        pre.length 4 (4 + (optsBytes opts).length) [] =
        .ok (4 + (optsBytes opts).length, [] ++ opts)) :
    loadClientServer cfg (n2 + 1) t []
      ((pre ++ msgBytes (.clientServer t tid opts)) ++ rest) pre.length
      (some (msgBytes (.clientServer t tid opts)).length) =
      .ok ((msgBytes (.clientServer t tid opts)).length, .clientServer t tid opts) := by
  have hlen : (msgBytes (.clientServer t tid opts)).length =
      4 + (optsBytes opts).length := by
    simp [msgBytes, htl] <;> omega
  have hbyte : pyByte ((pre ++ msgBytes (.clientServer t tid opts)) ++ rest)
      pre.length = .ok t := by
    have := pyByte_at pre (msgBytes (.clientServer t tid opts)) rest 0 pre.length
      (by simp [msgBytes]) (by omega)
    simpa [msgBytes] using this
  have htid : pySlice ((pre ++ msgBytes (.clientServer t tid opts)) ++ rest)
      (pre.length + 1) (pre.length + 4) = tid := by
    have hsplit : ((pre ++ msgBytes (.clientServer t tid opts)) ++ rest) =
        ((pre ++ [t]) ++ (tid ++ (optsBytes opts ++ rest))) := by simp [msgBytes]
    rw [hsplit]
    exact pySlice_exact' (pre ++ [t]) tid (optsBytes opts ++ rest) _ _ (by simp)
      (by simp [List.length_append, htl])
  have hBeq : ((pre ++ msgBytes (.clientServer t tid opts)) ++ rest) =
      (((pre ++ (t :: tid)) ++ optsBytes opts) ++ rest) := by simp [msgBytes]
  rw [hlen]
  simp only [loadClientServer, hbyte, except_bind_ok]
  rw [if_neg (by simp)]
  have hmax : pyMaxLength ((pre ++ msgBytes (.clientServer t tid opts)) ++ rest)
      pre.length (some (4 + (optsBytes opts).length)) = 4 + (optsBytes opts).length :=
    pyMaxLength_some _ _ _ (by omega)
  rw [hmax, htid, hBeq, hloop]
  simp only [except_bind_ok, List.nil_append, hval]

theorem rt_load_relay (cfg : Cfg) (t hc : Nat) (la pa : List Nat) (opts : List Opt)
    (pre rest : List Nat) (n2 : Nat)
    (hval : messageValidate cfg (.relayServer t hc la pa opts) = .ok ())
    (hla : la.length = 16) (hpa : pa.length = 16)
    (hloop : parseOptions cfg n2
        (((pre ++ (t :: hc :: (la ++ pa))) ++ optsBytes opts) ++ rest)
        pre.length 34 (34 + (optsBytes opts).length) [] =
        .ok (34 + (optsBytes opts).length, [] ++ opts)) :
    loadRelayServer cfg (n2 + 1) t []
      ((pre ++ msgBytes (.relayServer t hc la pa opts)) ++ rest) pre.length
      (some (msgBytes (.relayServer t hc la pa opts)).length) =
      .ok ((msgBytes (.relayServer t hc la pa opts)).length,
        .relayServer t hc la pa opts) := by
  have hlen : (msgBytes (.relayServer t hc la pa opts)).length =
      34 + (optsBytes opts).length := by
    simp [msgBytes, hla, hpa] <;> omega
  have hbyte : pyByte ((pre ++ msgBytes (.relayServer t hc la pa opts)) ++ rest)
      pre.length = .ok t := by
    have := pyByte_at pre (msgBytes (.relayServer t hc la pa opts)) rest 0 pre.length
      (by simp [msgBytes]) (by omega)
    simpa [msgBytes] using this
  have hbyte2 : pyByte ((pre ++ msgBytes (.relayServer t hc la pa opts)) ++ rest)
      (pre.length + 1) = .ok hc := by
    have := pyByte_at pre (msgBytes (.relayServer t hc la pa opts)) rest 1 (pre.length + 1)
      (by simp [msgBytes]) (by omega)
    simpa [msgBytes] using this
  have hlink : pySlice ((pre ++ msgBytes (.relayServer t hc la pa opts)) ++ rest)
      (pre.length + 2) (pre.length + 18) = la := by
    have hsplit : ((pre ++ msgBytes (.relayServer t hc la pa opts)) ++ rest) =
        ((pre ++ [t, hc]) ++ (la ++ (pa ++ (optsBytes opts ++ rest)))) := by
      simp [msgBytes]
    rw [hsplit]
    exact pySlice_exact' (pre ++ [t, hc]) la (pa ++ (optsBytes opts ++ rest)) _ _
      (by simp) (by simp [List.length_append, hla])
  have hpeer : pySlice ((pre ++ msgBytes (.relayServer t hc la pa opts)) ++ rest)
      (pre.length + 18) (pre.length + 34) = pa := by
    have hsplit : ((pre ++ msgBytes (.relayServer t hc la pa opts)) ++ rest) =
        ((pre ++ (t :: hc :: la)) ++ (pa ++ (optsBytes opts ++ rest))) := by
      simp [msgBytes]
    rw [hsplit]
    exact pySlice_exact' (pre ++ (t :: hc :: la)) pa (optsBytes opts ++ rest) _ _
      (by simp [hla]) (by simp [List.length_append, hla, hpa])
  have hBeq : ((pre ++ msgBytes (.relayServer t hc la pa opts)) ++ rest) =
      (((pre ++ (t :: hc :: (la ++ pa))) ++ optsBytes opts) ++ rest) := by simp [msgBytes]
  rw [hlen]
  simp only [loadRelayServer, hbyte, hbyte2, except_bind_ok, hlink, hpeer]
  rw [if_neg (by rw [hla]; omega), if_neg (by rw [hpa]; omega)]
  have hmax : pyMaxLength ((pre ++ msgBytes (.relayServer t hc la pa opts)) ++ rest)
      pre.length (some (34 + (optsBytes opts).length)) = 34 + (optsBytes opts).length :=
    pyMaxLength_some _ _ _ (by omega)
  rw [hmax, hBeq, hloop]
  simp only [except_bind_ok, List.nil_append, hval]

theorem rt_opt_generic (cfg : Cfg) (c : Nat) (d : List Nat) (pre rest : List Nat)
    (n : Nat) (hd16 : d.length < 65536) (hc9 : ¬ (c = 9)) :
    optionParse cfg (n + 1) ((pre ++ optBytes (.generic c d)) ++ rest) pre.length =
      .ok ((optBytes (.generic c d)).length, .generic c d) := by
  have hlen : (optBytes (.generic c d)).length = d.length + 4 := by simp [optBytes]
  have hbl : ((pre ++ optBytes (.generic c d)) ++ rest).length =
      pre.length + (d.length + 4) + rest.length := by
    simp [List.length_append, hlen] <;> omega
  have h0 : pyByte ((pre ++ optBytes (.generic c d)) ++ rest) pre.length =
      .ok (c / 256) := by
    have := pyByte_at pre (optBytes (.generic c d)) rest 0 pre.length
      (by simp [optBytes]) (by omega)
    simpa [optBytes] using this
  have h1 : pyByte ((pre ++ optBytes (.generic c d)) ++ rest) (pre.length + 1) =
      .ok (c % 256) := by
    have := pyByte_at pre (optBytes (.generic c d)) rest 1 (pre.length + 1)
      (by simp [optBytes]) (by omega)
    simpa [optBytes] using this
  have h2 : pyByte ((pre ++ optBytes (.generic c d)) ++ rest) (pre.length + 2) =
      .ok (d.length / 256) := by
    have := pyByte_at pre (optBytes (.generic c d)) rest 2 (pre.length + 2)
      (by simp [optBytes]) (by omega)
    simpa [optBytes] using this
  have h3 : pyByte ((pre ++ optBytes (.generic c d)) ++ rest) (pre.length + 3) =
      .ok (d.length % 256) := by
    have := pyByte_at pre (optBytes (.generic c d)) rest 3 (pre.length + 3)
      (by simp [optBytes]) (by omega)
    simpa [optBytes] using this
  have hdata : pySlice ((pre ++ optBytes (.generic c d)) ++ rest) (pre.length + 4)
      (pre.length + 4 + d.length) = d := by
    have hsplit : ((pre ++ optBytes (.generic c d)) ++ rest) =
        ((pre ++ [c / 256, c % 256, d.length / 256, d.length % 256]) ++ (d ++ rest)) := by
      simp [optBytes]
    rw [hsplit]
    exact pySlice_exact' (pre ++ [c / 256, c % 256, d.length / 256, d.length % 256])
      d rest _ _ (by simp) (by simp [List.length_append] <;> omega)
  have hcode : c / 256 * 256 + c % 256 = c := by omega
  have hdlen : d.length / 256 * 256 + d.length % 256 = d.length := by omega
  rw [hlen]
  simp only [optionParse]
  rw [if_neg (by simp [List.length_append, optBytes] <;> omega)]
  simp only [h0, h1, h2, h3, except_bind_ok, hcode, hdlen]
  rw [if_neg (by simp [List.length_append, optBytes] <;> omega), if_neg hc9, hdata]
  simp [Nat.add_comm]

theorem rt_opt_relay (cfg : Cfg) (m : Message) (pre rest : List Nat) (n : Nat)
    (hs16 : (msgBytes m).length < 65536)
    (hmsg : parseMessageF cfg n
        (((pre ++ [0, 9, (msgBytes m).length / 256, (msgBytes m).length % 256]) ++
          msgBytes m) ++ rest) (pre.length + 4) (some (msgBytes m).length) =
        .ok ((msgBytes m).length, m)) :
    optionParse cfg (n + 1) ((pre ++ optBytes (.relayMsg m)) ++ rest) pre.length =
      .ok ((optBytes (.relayMsg m)).length, .relayMsg m) := by
  have hlen : (optBytes (.relayMsg m)).length = (msgBytes m).length + 4 := by
    simp [optBytes]
  have hbl : ((pre ++ optBytes (.relayMsg m)) ++ rest).length =
      pre.length + ((msgBytes m).length + 4) + rest.length := by
    simp [List.length_append, hlen] <;> omega
  have h0 : pyByte ((pre ++ optBytes (.relayMsg m)) ++ rest) pre.length = .ok 0 := by
    have := pyByte_at pre (optBytes (.relayMsg m)) rest 0 pre.length
      (by simp [optBytes]) (by omega)
    simpa [optBytes] using this
  have h1 : pyByte ((pre ++ optBytes (.relayMsg m)) ++ rest) (pre.length + 1) =
      .ok 9 := by
    have := pyByte_at pre (optBytes (.relayMsg m)) rest 1 (pre.length + 1)
      (by simp [optBytes]) (by omega)
    simpa [optBytes] using this
  have h2 : pyByte ((pre ++ optBytes (.relayMsg m)) ++ rest) (pre.length + 2) =
      .ok ((msgBytes m).length / 256) := by
    have := pyByte_at pre (optBytes (.relayMsg m)) rest 2 (pre.length + 2)
      (by simp [optBytes]) (by omega)
    simpa [optBytes] using this
  have h3 : pyByte ((pre ++ optBytes (.relayMsg m)) ++ rest) (pre.length + 3) =
      .ok ((msgBytes m).length % 256) := by
    have := pyByte_at pre (optBytes (.relayMsg m)) rest 3 (pre.length + 3)
      (by simp [optBytes]) (by omega)
    simpa [optBytes] using this
  have hdlen : (msgBytes m).length / 256 * 256 + (msgBytes m).length % 256 =
      (msgBytes m).length := by omega
  have hBeq : ((pre ++ optBytes (.relayMsg m)) ++ rest) =
      (((pre ++ [0, 9, (msgBytes m).length / 256, (msgBytes m).length % 256]) ++
        msgBytes m) ++ rest) := by
    simp [optBytes]
  have hcond1 : ¬ (((pre ++ optBytes (.relayMsg m)) ++ rest).length < pre.length + 4) := by
    rw [hbl]; omega
  have hcond2 : ¬ (((pre ++ optBytes (.relayMsg m)) ++ rest).length <
      pre.length + 4 + (msgBytes m).length) := by
    rw [hbl]; omega
  rw [hlen]
  simp only [optionParse]
  rw [if_neg hcond1]
  simp only [h0, h1, h2, h3, except_bind_ok, hdlen]
  rw [if_neg hcond2]
  simp only [Nat.zero_mul, Nat.zero_add, if_true]
  rw [hBeq, hmsg]
  simp <;> omega

theorem rt_opts_cons (cfg : Cfg) (o : Opt) (rest2 : List Opt) (pre rest : List Nat)
    (offset myOffset : Nat) (acc : List Opt) (n : Nat)
    (hoff : offset + myOffset = pre.length)
    (hhead : optionParse cfg n ((pre ++ optBytes o) ++ (optsBytes rest2 ++ rest))
        pre.length = .ok ((optBytes o).length, o))
    (htail : parseOptions cfg n (((pre ++ optBytes o) ++ optsBytes rest2) ++ rest)
        offset (myOffset + (optBytes o).length)
        ((myOffset + (optBytes o).length) + (optsBytes rest2).length) (acc ++ [o]) =
        .ok ((myOffset + (optBytes o).length) + (optsBytes rest2).length,
          (acc ++ [o]) ++ rest2)) :
    parseOptions cfg (n + 1) ((pre ++ optsBytes (o :: rest2)) ++ rest) offset myOffset
      (myOffset + (optsBytes (o :: rest2)).length) acc =
      .ok (myOffset + (optsBytes (o :: rest2)).length, acc ++ (o :: rest2)) := by
  have hob : optsBytes (o :: rest2) = optBytes o ++ optsBytes rest2 := rfl
  have hlen : (optsBytes (o :: rest2)).length =
      (optBytes o).length + (optsBytes rest2).length := by
    rw [hob, List.length_append]
  have h4 : 4 ≤ (optBytes o).length := optBytes_length_ge_four o
  have hmax : myOffset + (optsBytes (o :: rest2)).length =
      (myOffset + (optBytes o).length) + (optsBytes rest2).length := by
    rw [hlen]; omega
  have hB1 : ((pre ++ optsBytes (o :: rest2)) ++ rest) =
      ((pre ++ optBytes o) ++ (optsBytes rest2 ++ rest)) := by simp [hob]
  have hB2 : ((pre ++ optsBytes (o :: rest2)) ++ rest) =
      (((pre ++ optBytes o) ++ optsBytes rest2) ++ rest) := by simp [hob]
  rw [parseOptions, if_pos (by rw [hlen]; omega)]
  have hhead2 : optionParse cfg n ((pre ++ optsBytes (o :: rest2)) ++ rest)
      (offset + myOffset) = .ok ((optBytes o).length, o) := by
    rw [hB1, hoff]; exact hhead
  simp only [hhead2, except_bind_ok]
  rw [hmax, hB2, htail]
  simp

/-- The mutual round-trip induction, by strong induction on the fuel. -/
theorem roundTripAux : ∀ fuel : Nat, RTmsg fuel ∧ RTopt fuel ∧ RTopts fuel := by
  intro fuel
  induction fuel using Nat.strong_induction_on with
  | _ fuel ih =>
    refine ⟨?_, ?_, ?_⟩
    · intro cfg m pre rest hval hdisp hfuel
      cases fuel with
      | zero => exfalso; cases m <;> simp [msgFuel] at hfuel
      | succ n =>
        cases m with
        | unknown t d =>
          have hreg : message_registry t = none := by
            simpa [msgDispatchOK] using hdisp
          have hbyte : pyByte ((pre ++ msgBytes (.unknown t d)) ++ rest) pre.length =
              .ok t := by
            have := pyByte_at pre (msgBytes (.unknown t d)) rest 0 pre.length
              (by simp [msgBytes]) (by omega)
            simpa [msgBytes] using this
          simp only [parseMessageF, determine_class, hbyte, except_bind_ok, hreg,
            Option.getD_none]
          exact rt_load_unknown cfg t d pre rest hval
        | clientServer t tid opts =>
          obtain ⟨htl, htb, hov⟩ := csValidate_parts cfg t tid opts hval
          have hdo : decide (1 ≤ t ∧ t ≤ 11) = true ∧ optsDispatchOK opts = true := by
            simpa [msgDispatchOK, Bool.and_eq_true] using hdisp
          have ht : 1 ≤ t ∧ t ≤ 11 := by simpa using hdo.1
          have hreg : message_registry t = some (.clientServerClass t) := by
            rw [message_registry, if_pos ht]
          have hbyte : pyByte ((pre ++ msgBytes (.clientServer t tid opts)) ++ rest)
              pre.length = .ok t := by
            have := pyByte_at pre (msgBytes (.clientServer t tid opts)) rest 0 pre.length
              (by simp [msgBytes]) (by omega)
            simpa [msgBytes] using this
          have hfo : 1 + optsFuel opts ≤ n := by simp [msgFuel] at hfuel; omega
          simp only [parseMessageF, determine_class, hbyte, except_bind_ok, hreg,
            Option.getD_some]
          cases n with
          | zero => omega
          | succ n2 =>
            have hloop := (ih n2 (by omega)).2.2 cfg opts (pre ++ (t :: tid)) rest
              pre.length 4 [] hov hdo.2 (by omega)
              (by simp [List.length_append, htl])
            exact rt_load_cs cfg t tid opts pre rest n2 hval htl hloop
        | relayServer t hc la pa opts =>
          obtain ⟨hhc, hla, hpa, hov⟩ := relayValidate_parts cfg t hc la pa opts hval
          have hdo : (t == 12 || t == 13) = true ∧ optsDispatchOK opts = true := by
            simpa [msgDispatchOK, Bool.and_eq_true] using hdisp
          have hbyte : pyByte ((pre ++ msgBytes (.relayServer t hc la pa opts)) ++ rest)
              pre.length = .ok t := by
            have := pyByte_at pre (msgBytes (.relayServer t hc la pa opts)) rest 0
              pre.length (by simp [msgBytes]) (by omega)
            simpa [msgBytes] using this
          have hfo : 1 + optsFuel opts ≤ n := by simp [msgFuel] at hfuel; omega
          have ht : t = 12 ∨ t = 13 := by
            have := hdo.1
            simp only [Bool.or_eq_true, beq_iff_eq] at this
            exact this
          cases n with
          | zero => omega
          | succ n2 =>
            have hloop := (ih n2 (by omega)).2.2 cfg opts
              (pre ++ (t :: hc :: (la ++ pa))) rest pre.length 34 [] hov hdo.2 (by omega)
              (by simp [List.length_append, hla, hpa])
            have hload := rt_load_relay cfg t hc la pa opts pre rest n2 hval hla hpa
              hloop
            rcases ht with ht | ht
            · subst ht
              have hreg : message_registry 12 = some .relayForwardClass := rfl
              simp only [parseMessageF, determine_class, hbyte, except_bind_ok, hreg,
                Option.getD_some]
              exact hload
            · subst ht
              have hreg : message_registry 13 = some .relayReplyClass := rfl
              simp only [parseMessageF, determine_class, hbyte, except_bind_ok, hreg,
                Option.getD_some]
              exact hload
    · intro cfg o pre rest hval hdisp hfuel
      cases fuel with
      | zero => exfalso; cases o <;> simp [optFuel] at hfuel
      | succ n =>
        cases o with
        | generic c d =>
          obtain ⟨hc16, hd16, hdb⟩ := optValidate_generic cfg c d hval
          have hc9 : ¬ (c = 9) := by simpa [optDispatchOK] using hdisp
          exact rt_opt_generic cfg c d pre rest n hd16 hc9
        | relayMsg m =>
          obtain ⟨hs16, hvm⟩ := optValidate_relayMsg cfg m hval
          have hdm : msgDispatchOK m = true := by simpa [optDispatchOK] using hdisp
          have hfm : msgFuel m ≤ n := by simp [optFuel] at hfuel; omega
          apply rt_opt_relay cfg m pre rest n hs16
          have := (ih n (by omega)).1 cfg m
            (pre ++ [0, 9, (msgBytes m).length / 256, (msgBytes m).length % 256]) rest
            hvm hdm hfm
          simpa [List.length_append] using this
    · intro cfg opts pre rest offset myOffset acc hval hdisp hfuel hoff
      cases opts with
      | nil =>
        rw [parseOptions.eq_def, if_neg (by simp [optsBytes])]
        simp [optsBytes]
      | cons o rest2 =>
        obtain ⟨hvo, hvr⟩ := optionsValidate_cons cfg o rest2 hval
        have hdo : optDispatchOK o = true ∧ optsDispatchOK rest2 = true := by
          simpa [optsDispatchOK, Bool.and_eq_true] using hdisp
        cases fuel with
        | zero => exfalso; simp [optsFuel] at hfuel
        | succ n =>
          have hfo : optFuel o ≤ n := by simp [optsFuel] at hfuel; omega
          have hfr : optsFuel rest2 ≤ n := by simp [optsFuel] at hfuel; omega
          have hhead := (ih n (by omega)).2.1 cfg o pre (optsBytes rest2 ++ rest)
            hvo hdo.1 hfo
          have htail := (ih n (by omega)).2.2 cfg rest2 (pre ++ optBytes o) rest offset
            (myOffset + (optBytes o).length) (acc ++ [o]) hvr hdo.2 hfr
            (by simp [List.length_append]; omega)
          exact rt_opts_cons cfg o rest2 pre rest offset myOffset acc n hoff hhead htail

theorem fuelBound : ∀ B : Nat,
    (∀ m : Message, msgFuel m ≤ B → msgFuel m ≤ (msgBytes m).length + 1)
  ∧ (∀ o : Opt, optFuel o ≤ B → 1 + optFuel o ≤ (optBytes o).length)
  ∧ (∀ opts : List Opt, optsFuel opts ≤ B → optsFuel opts ≤ (optsBytes opts).length) := by
  intro B
  induction B with
  | zero =>
    refine ⟨?_, ?_, ?_⟩
    · intro m hm; exfalso; cases m <;> simp [msgFuel] at hm
    · intro o ho; exfalso; cases o <;> simp [optFuel] at ho
    · intro opts hopts
      cases opts with
      | nil => simp [optsFuel]
      | cons o r => exfalso; simp [optsFuel] at hopts
  | succ k ih =>
    refine ⟨?_, ?_, ?_⟩
    · intro m hm
      cases m with
      | unknown t d => simp [msgFuel, msgBytes]
      | clientServer t tid opts =>
        have hb := ih.2.2 opts (by simp [msgFuel] at hm; omega)
        simp only [msgFuel, msgBytes, List.length_cons, List.length_append]
        omega
      | relayServer t hc la pa opts =>
        have hb := ih.2.2 opts (by simp [msgFuel] at hm; omega)
        simp only [msgFuel, msgBytes, List.length_cons, List.length_append]
        omega
    · intro o ho
      cases o with
      | generic c d => simp [optFuel, optBytes]
      | relayMsg m =>
        have hb := ih.1 m (by simp [optFuel] at ho; omega)
        simp only [optFuel, optBytes, List.length_cons]
        omega
    · intro opts hopts
      cases opts with
      | nil => simp [optsFuel]
      | cons o r =>
        have h1 := ih.2.1 o (by simp [optsFuel] at hopts; omega)
        have h2 := ih.2.2 r (by simp [optsFuel] at hopts; omega)
        simp only [optsFuel, optsBytes, List.length_append]
        omega

theorem msgFuel_le_msgBytes_length (m : Message) : msgFuel m ≤ (msgBytes m).length + 1 :=
  (fuelBound (msgFuel m)).1 m le_rfl

/-- C1 (amended): save followed by parse with the declared length reconstructs the message
exactly, for every valid instance that re-dispatches to its own class — i.e. every
UnknownMessage in it (top-level or nested inside relay-message options) carries an
unregistered tag.  (In the embedding this also asks that each clientServer/relayServer
value carry its class's fixed tag and that no modelled generic option use the
relay-message code — conditions that hold automatically for values of the Python classes.)
The substantive correction is the UnknownMessage tag condition: a valid UnknownMessage
whose message_type is a registered tag 1..13 re-dispatches to that class and fails to
round-trip (see the counterexample). -/
theorem parse_save_roundtrip (cfg : Cfg) (m : Message)
    (hval : messageValidate cfg m = .ok ()) (hdisp : msgDispatchOK m = true) :
    messageSave cfg m = .ok (msgBytes m) ∧
    Message.parse cfg (msgBytes m) 0 (some (msgBytes m).length) =
      .ok ((msgBytes m).length, m) := by
  constructor
  · rw [messageSave, hval]; rfl
  · rw [Message.parse]
    have h := (roundTripAux ((msgBytes m).length + 1)).1 cfg m [] [] hval hdisp
      (msgFuel_le_msgBytes_length m)
    simpa using h

/-- C1 counterexample: UnknownMessage(2, b'') is a valid instance (validate passes), but
parse(save(x), 1) dispatches tag 2 to AdvertiseMessage and fails on the 0-byte
transaction id — it does not return the UnknownMessage back. -/
theorem parse_save_c1_counterexample :
    messageValidate cfgEx (.unknown 2 []) = .ok () ∧
    messageSave cfgEx (.unknown 2 []) = .ok [2] ∧
    Message.parse cfgEx [2] 0 (some 1) = .error .transactionIdNot3Bytes := by decide

/-- C1 witness: the amended round trip at a concrete relay-forward message carrying an
echo option and an embedded client-server message with one option. -/
theorem parse_save_roundtrip_witness :
    messageSave cfgEx
        (.relayServer 12 1 (List.replicate 16 1) (List.replicate 16 2)
          [.generic 18 [7], .relayMsg (.clientServer 1 [1, 2, 3] [.generic 5 [2]])]) =
      .ok (msgBytes (.relayServer 12 1 (List.replicate 16 1) (List.replicate 16 2)
          [.generic 18 [7], .relayMsg (.clientServer 1 [1, 2, 3] [.generic 5 [2]])])) ∧
    Message.parse cfgEx
        (msgBytes (.relayServer 12 1 (List.replicate 16 1) (List.replicate 16 2)
          [.generic 18 [7], .relayMsg (.clientServer 1 [1, 2, 3] [.generic 5 [2]])])) 0
        (some (msgBytes (.relayServer 12 1 (List.replicate 16 1) (List.replicate 16 2)
          [.generic 18 [7], .relayMsg (.clientServer 1 [1, 2, 3] [.generic 5 [2]])])).length) =
      .ok ((msgBytes (.relayServer 12 1 (List.replicate 16 1) (List.replicate 16 2)
          [.generic 18 [7], .relayMsg (.clientServer 1 [1, 2, 3] [.generic 5 [2]])])).length,
        .relayServer 12 1 (List.replicate 16 1) (List.replicate 16 2)
          [.generic 18 [7], .relayMsg (.clientServer 1 [1, 2, 3] [.generic 5 [2]])]) :=
  parse_save_roundtrip cfgEx
    (.relayServer 12 1 (List.replicate 16 1) (List.replicate 16 2)
      [.generic 18 [7], .relayMsg (.clientServer 1 [1, 2, 3] [.generic 5 [2]])])
    (by decide) (by decide)

/-- C4 (amended): part 1 — for a buffer holding a single valid message of declared length
L followed by arbitrary trailing bytes, parse consumes exactly L bytes.  Part 2 — there is
NO overrun check: an option whose self-described length extends past the declared length L
is parsed in full, and load_from returns the total consumed count, which exceeds L,
without raising. -/
theorem parse_exact_consumption :
    (∀ (cfg : Cfg) (m : Message) (rest : List Nat),
        messageValidate cfg m = .ok () → msgDispatchOK m = true →
        Message.parse cfg (msgBytes m ++ rest) 0 (some (msgBytes m).length) =
          .ok ((msgBytes m).length, m))
  ∧ (∃ (buffer : List Nat) (L n : Nat) (res : Message),
        loadClientServer cfgEx 40 1 [] buffer 0 (some L) = .ok (n, res) ∧ L < n) := by
  constructor
  · intro cfg m rest hval hdisp
    rw [Message.parse]
    have hfl : msgFuel m ≤ (msgBytes m ++ rest).length + 1 := by
      have := msgFuel_le_msgBytes_length m
      simp only [List.length_append]
      omega
    have h := (roundTripAux ((msgBytes m ++ rest).length + 1)).1 cfg m [] rest hval hdisp hfl
    simpa using h
  · exact ⟨[1, 0, 0, 0, 0, 0, 0, 2, 9, 9], 5, 10,
      .clientServer 1 [0, 0, 0] [.generic 0 [9, 9]], by decide, by decide⟩

/-- C4 counterexample: a ClientServerMessage load with declared length 5 over a 10-byte
buffer whose single option extends 5 bytes past the declared length — the claim predicts
an error, but load_from returns 10 bytes consumed (> 5) successfully. -/
theorem loadClientServer_c4_counterexample :
    loadClientServer cfgEx 40 1 [] [1, 0, 0, 0, 0, 0, 0, 2, 9, 9] 0 (some 5) =
      .ok (10, .clientServer 1 [0, 0, 0] [.generic 0 [9, 9]]) ∧ 5 < 10 := by decide

/-- C4 witness: exact consumption at a concrete message with two trailing bytes beyond the
declared length. -/
theorem parse_exact_consumption_witness :
    Message.parse cfgEx (msgBytes (.clientServer 1 [0, 0, 0] []) ++ [9, 9]) 0
        (some (msgBytes (.clientServer 1 [0, 0, 0] [])).length) =
      .ok ((msgBytes (.clientServer 1 [0, 0, 0] [])).length, .clientServer 1 [0, 0, 0] []) :=
  parse_exact_consumption.1 cfgEx (.clientServer 1 [0, 0, 0] []) [9, 9]
    (by decide) (by decide)

/-- C9 witness: the theorem applied to a relay-forward message whose relay-message option
embeds an UnknownMessage. -/
theorem wrap_response_corrupt_chain_witness :
    ∃ e, wrap_response
        (.relayServer 12 0 (List.replicate 16 0) (List.replicate 16 0)
          [.generic 18 [1], .relayMsg (.unknown 99 [])])
        (.clientServer 7 [0, 0, 0] []) = .error e :=
  wrap_response_corrupt_chain (.clientServer 7 [0, 0, 0] []) (.unknown 99 []) 0
    (List.replicate 16 0) (List.replicate 16 0)
    [.generic 18 [1], .relayMsg (.unknown 99 [])] (by decide) (by decide) (by decide)

end DhcpKit
